import Mathlib

/-!
Verification of the natural-language specification of the
ceremony-field-catalog Python repository against a shallow embedding of its
source code.

Embedded sources:
- src/sdks/python/ceremony_catalog_sdk.py (fire-and-forget observation engine)
- src/sdks/python/testgen/api/client.py (synchronous generator-side client)
- src/sdks/python/testgen/generation/distributions.py
- src/sdks/python/testgen/generation/generator.py
- src/sdks/python/testgen/generation/values.py
- src/sdks/python/testgen/xsd/model.py

Randomness (random.random, random.randint, random.choice, Faker) is modelled
by oracle functions universally quantified in the theorems; HTTP responses
and XML parsing are modelled by their observable outcomes.
-/

set_option maxHeartbeats 1600000

/-- Shallow embedding of an ElementTree element: tag, ordered attribute
list (Python dicts preserve insertion order), optional text, child list. -/
inductive XmlNode : Type where
  | elem : String → List (String × String) → Option String → List XmlNode → XmlNode
deriving Repr

def XmlNode.tag : XmlNode → String
  | .elem t _ _ _ => t

def XmlNode.attrib : XmlNode → List (String × String)
  | .elem _ a _ _ => a

def XmlNode.text : XmlNode → Option String
  | .elem _ _ x _ => x

def XmlNode.children : XmlNode → List XmlNode
  | .elem _ _ _ cs => cs

/-- Whitespace set stripped by Python str.strip (ASCII part). -/
def pySpace (c : Char) : Bool :=
  c == ' ' || c == '\t' || c == '\n' || c == '\r' || c == '\x0b' || c == '\x0c'

/-- Embeds Python str.strip(): removes leading and trailing whitespace. -/
def pyStrip (s : String) : String :=
  String.mk (((s.data.dropWhile pySpace).reverse.dropWhile pySpace).reverse)

/-- Yields true exactly when the string strips to empty, the Python
falsiness test applied after str.strip(). -/
def pyBlank (s : String) : Bool := pyStrip s == ""

/-- The startsWith test, computed over the underlying character list. -/
def strStarts (s pat : String) : Bool := pat.data.isPrefixOf s.data

/-- Embeds ceremony_catalog_sdk._get_local_name: strips a leading
brace-delimited namespace from an ElementTree tag.  Python does
tag.split(chr(125), 1) and indexes [1]; when a brace-opening tag has no
closing brace that indexing raises, which the extractor entry points absorb
into an empty result, so the total model may return the tag unchanged there
without affecting any observable of the claims. -/
def get_local_name (tag : String) : String :=
  if strStarts tag "\x7b" then
    match dropThroughChar '\x7d' tag.data with
    | some rest => String.mk rest
    | none => tag
  else tag
where
  dropThroughChar (c : Char) : List Char → Option (List Char)
    | [] => none
    | x :: xs => if x = c then some xs else dropThroughChar c xs

/-- Embeds CatalogObservationDto (ceremony_catalog_sdk.py). -/
structure CatalogObservationDto where
  metadata : List (String × String)
  field_path : String
  count : Nat
  has_null : Bool
  has_empty : Bool
deriving Repr, DecidableEq

/-- Embeds FieldStatistics (ceremony_catalog_sdk.py). -/
structure FieldStatistics where
  field_path : String
  metadata : List (String × String)
  total_occurrences : Nat
  null_value_count : Nat
  empty_value_count : Nat
deriving Repr, DecidableEq

/-- Embeds the mutation part of _update_field_statistics: one sighting of a
field with the given value bumps the counters. -/
def FieldStatistics.bump (s : FieldStatistics) (value : Option String) :
    FieldStatistics :=
  let s1 := { s with total_occurrences := s.total_occurrences + 1 }
  match value with
  | none => { s1 with null_value_count := s1.null_value_count + 1 }
  | some v =>
      if v == "" || pyBlank v then
        { s1 with empty_value_count := s1.empty_value_count + 1 }
      else s1

/-- Embeds _update_field_statistics: the field_stats dict is modelled as an
insertion-ordered association list keyed by field_path; a missing key is
created with zero counts and then bumped, an existing one is bumped in
place. -/
def update_field_statistics (stats : List FieldStatistics) (path : String)
    (md : List (String × String)) (value : Option String) :
    List FieldStatistics :=
  if stats.any (fun s => s.field_path == path) then
    stats.map (fun s => if s.field_path == path then s.bump value else s)
  else
    stats ++ [FieldStatistics.bump
      { field_path := path, metadata := md, total_occurrences := 0,
        null_value_count := 0, empty_value_count := 0 } value]

/-- Condition of the Python test `element.text and element.text.strip()`. -/
def textPresent (t : Option String) : Bool :=
  match t with
  | none => false
  | some s => !(s == "") && !(pyBlank s)

mutual

/-- Embeds _process_element_recursive (ceremony_catalog_sdk.py): leaves
record one occurrence (present or empty), every attribute records one
occurrence at path/@localName, then the walk recurses into children. -/
def process_element_recursive (n : XmlNode) (stats : List FieldStatistics)
    (metadata : List (String × String)) (parent_path : String) :
    List FieldStatistics :=
  match n with
  | XmlNode.elem tag attrib text children =>
    let element_name := get_local_name tag
    let current_path := parent_path ++ "/" ++ element_name
    let has_children := children.length > 0
    let stats1 :=
      if textPresent text && !has_children then
        update_field_statistics stats current_path metadata
          (some (text.getD ""))
      else if !has_children then
        update_field_statistics stats current_path metadata (some "")
      else stats
    let stats2 := processAttrs attrib stats1 current_path metadata
    processChildren children stats2 metadata current_path

/-- Attribute loop of _process_element_recursive. -/
def processAttrs (attrs : List (String × String))
    (stats : List FieldStatistics) (current_path : String)
    (metadata : List (String × String)) : List FieldStatistics :=
  match attrs with
  | [] => stats
  | (attr_name, attr_value) :: rest =>
      let attribute_path := current_path ++ "/@" ++ get_local_name attr_name
      processAttrs rest
        (update_field_statistics stats attribute_path metadata
          (some attr_value))
        current_path metadata

/-- Child loop of _process_element_recursive. -/
def processChildren (cs : List XmlNode) (stats : List FieldStatistics)
    (metadata : List (String × String)) (current_path : String) :
    List FieldStatistics :=
  match cs with
  | [] => stats
  | c :: rest =>
      processChildren rest
        (process_element_recursive c stats metadata current_path)
        metadata current_path

end

/-- Embeds _convert_statistics_to_observations. -/
def convert_statistics_to_observations (stats : List FieldStatistics) :
    List CatalogObservationDto :=
  stats.map (fun s =>
    { metadata := s.metadata
      field_path := s.field_path
      count := s.total_occurrences
      has_null := s.null_value_count > 0
      has_empty := s.empty_value_count > 0 })

/-- Embeds _extract_observations_from_element: a None element yields the
empty list, otherwise the walk starts from an empty stats dict and the
metadata defaults to the empty mapping. -/
def extract_observations_from_element (xml_element : Option XmlNode)
    (metadata : Option (List (String × String))) :
    List CatalogObservationDto :=
  match xml_element with
  | none => []
  | some root =>
      convert_statistics_to_observations
        (process_element_recursive root [] (metadata.getD []) "")

/-- Embeds _extract_observations_from_string: ET.fromstring is modelled by
a parse oracle returning either the root element or a parse failure; a None
or empty input and a parse failure each yield the empty list. -/
def extract_observations_from_string
    (parse : String → Except Unit XmlNode) (xml_data : Option String)
    (metadata : Option (List (String × String))) :
    List CatalogObservationDto :=
  match xml_data with
  | none => []
  | some s =>
      if s == "" then []
      else
        match parse s with
        | Except.error _ => []
        | Except.ok root => extract_observations_from_element (some root) metadata

/-- Embeds _extract_observations_from_bytes, with bytes as a list of byte
values and ET.fromstring as a parse oracle. -/
def extract_observations_from_bytes
    (parse : List Nat → Except Unit XmlNode) (xml_data : Option (List Nat))
    (metadata : Option (List (String × String))) :
    List CatalogObservationDto :=
  match xml_data with
  | none => []
  | some bs =>
      if bs.isEmpty then []
      else
        match parse bs with
        | Except.error _ => []
        | Except.ok root => extract_observations_from_element (some root) metadata

/-- Embeds ObservationWorkItem (ceremony_catalog_sdk.py). -/
structure ObservationWorkItem where
  context_id : String
  observations : List CatalogObservationDto
deriving Repr, DecidableEq

/-- Embeds the bounded queue.Queue: maxsize as passed to initialize and the
current item list. -/
structure PyQueue where
  maxsize : Int
  items : List ObservationWorkItem
deriving Repr, DecidableEq

/-- Fullness condition under which queue.Queue.put_nowait raises
queue.Full: a positive maxsize already reached. -/
def queue_full (q : PyQueue) : Bool :=
  0 < q.maxsize && q.maxsize ≤ (q.items.length : Int)

/-- Embeds the module-level mutable state of ceremony_catalog_sdk.py that
the intake path reads: the _initialized flag and the _queue slot. -/
structure SdkState where
  initialized : Bool
  queue : Option PyQueue
deriving Repr, DecidableEq

/-- Python truthiness-and-strip test of _enqueue_work on the contextId:
true when the id is None, empty, or whitespace-only. -/
def ctxBlank (context_id : Option String) : Bool :=
  match context_id with
  | none => true
  | some c => c == "" || pyBlank c

/-- Embeds _enqueue_work: silently returns on an uninitialized engine, a
blank contextId, an empty extraction result, or a full queue (put_nowait
raising queue.Full is caught and dropped); otherwise appends one work item.
Extraction is pure in the model, so its result is passed as a value even
though Python computes it after the contextId check. -/
def enqueue_work (st : SdkState) (observations : List CatalogObservationDto)
    (context_id : Option String) : SdkState :=
  if !st.initialized || st.queue.isNone then st
  else if ctxBlank context_id then st
  else if observations.isEmpty then st
  else
    match st.queue, context_id with
    | some q, some c =>
        if queue_full q then st
        else { st with queue := some { q with
          items := q.items ++ [{ context_id := c, observations := observations }] } }
    | _, _ => st

/-- Embeds submit_observations_bytes. -/
def submit_observations_bytes (parse : List Nat → Except Unit XmlNode)
    (st : SdkState) (xml_data : Option (List Nat)) (context_id : Option String)
    (metadata : Option (List (String × String))) : SdkState :=
  enqueue_work st (extract_observations_from_bytes parse xml_data metadata)
    context_id

/-- Embeds submit_observations_string. -/
def submit_observations_string (parse : String → Except Unit XmlNode)
    (st : SdkState) (xml_data : Option String) (context_id : Option String)
    (metadata : Option (List (String × String))) : SdkState :=
  enqueue_work st (extract_observations_from_string parse xml_data metadata)
    context_id

/-- Embeds submit_observations_element. -/
def submit_observations_element (st : SdkState)
    (xml_element : Option XmlNode) (context_id : Option String)
    (metadata : Option (List (String × String))) : SdkState :=
  enqueue_work st (extract_observations_from_element xml_element metadata)
    context_id

/-- Concrete full-queue SDK state used by the C1 witness: capacity one,
one queued work item. -/
def fullObservation : CatalogObservationDto :=
  { metadata := [], field_path := "/Root", count := 1, has_null := false,
    has_empty := true }

def sdkStateFull : SdkState :=
  { initialized := true,
    queue := some
      { maxsize := 1,
        items := [{ context_id := "c", observations := [fullObservation] }] } }

/-- Concrete uninitialized SDK state used by the C1 witness. -/
def sdkStateUninit : SdkState := { initialized := false, queue := none }

/-- Paths of a statistics dict, in insertion order. -/
def statPaths (l : List FieldStatistics) : List String :=
  l.map (fun s => s.field_path)

/-- Property of being a slash-rooted path. -/
def SlashPath (p : String) : Prop := ∃ t, p = "/" ++ t

mutual

/-- Field paths that the extractor walk can mention below a parent path:
the element path for a leaf, one path per attribute, and recursively the
paths of the children.  Mirrors the path construction of
_process_element_recursive, so each segment is a namespace-stripped local
name. -/
def nodePaths (n : XmlNode) (parent_path : String) : List String :=
  match n with
  | XmlNode.elem tag attrib _ children =>
    let cur := parent_path ++ "/" ++ get_local_name tag
    (if children.length > 0 then [] else [cur]) ++
      attrib.map (fun a => cur ++ "/@" ++ get_local_name a.1) ++
      forestPaths children cur

def forestPaths (cs : List XmlNode) (cur : String) : List String :=
  match cs with
  | [] => []
  | c :: rest => nodePaths c cur ++ forestPaths rest cur

end

/-- Invariant of the extractor's statistics dict: distinct paths, metadata
equal to the submission metadata, at least one occurrence per entry, null
plus empty bounded by the total, no null sightings (the engine never passes
a None value), and every path satisfying the path predicate A. -/
def ExtractInv (md : List (String × String)) (A : String → Prop)
    (l : List FieldStatistics) : Prop :=
  (statPaths l).Nodup ∧
  ∀ s ∈ l, s.metadata = md ∧ 1 ≤ s.total_occurrences ∧
    s.null_value_count + s.empty_value_count ≤ s.total_occurrences ∧
    s.null_value_count = 0 ∧ A s.field_path

/-- Substring containment, the Python test `pat in s`. -/
def strContains (s pat : String) : Bool :=
  (List.range (s.data.length + 1)).any
    (fun i => pat.data.isPrefixOf (s.data.drop i))

/-- Dictionary lookup, the Python element.get(key). -/
def pyGet (attrib : List (String × String)) (k : String) : Option String :=
  (attrib.find? (fun e => e.1 == k)).map (fun e => e.2)

/-- Fully qualified xsi:nil attribute name as ElementTree reports it. -/
def xsiNilName : String :=
  "\x7bhttp://www.w3.org/2001/XMLSchema-instance\x7dnil"

/-- Per-path entry of the defaultdict in client.extract_observations_from_xml. -/
structure ClientFieldStats where
  count : Nat
  has_null : Bool
  has_empty : Bool
deriving Repr, DecidableEq

/-- Observation dict produced by client.extract_observations_from_xml. -/
structure ClientObservation where
  metadata : List (String × String)
  fieldPath : String
  count : Nat
  hasNull : Bool
  hasEmpty : Bool
deriving Repr, DecidableEq

/-- Defaultdict access-and-mutate of the client extractor: a first access
creates the zeroed entry at the end (insertion order), then the mutation f
is applied in place. -/
def clientUpdate (l : List (String × ClientFieldStats)) (path : String)
    (f : ClientFieldStats → ClientFieldStats) :
    List (String × ClientFieldStats) :=
  if l.any (fun e => e.1 == path) then
    l.map (fun e => if e.1 == path then (e.1, f e.2) else e)
  else
    l ++ [(path, f { count := 0, has_null := false, has_empty := false })]

/-- Leaf mutation of client.process_element: bump count, then classify
from the text: a None text is null when the element carries
xsi:nil equal to true, empty otherwise; a blank text is empty. -/
def clientLeafUpdate (text : Option String) (nilAttr : Option String)
    (s : ClientFieldStats) : ClientFieldStats :=
  let s1 := { s with count := s.count + 1 }
  match text with
  | none =>
      if nilAttr == some "true" then { s1 with has_null := true }
      else { s1 with has_empty := true }
  | some t =>
      if pyBlank t then { s1 with has_empty := true } else s1

/-- Attribute mutation of client.process_element: bump count, mark empty
when the value is empty or blank. -/
def clientAttrUpdate (v : String) (s : ClientFieldStats) : ClientFieldStats :=
  let s1 := { s with count := s.count + 1 }
  if v == "" || pyBlank v then { s1 with has_empty := true } else s1

mutual

/-- Embeds process_element of client.extract_observations_from_xml
(testgen/api/client.py): a leaf records one occurrence with null/empty
classification honoring xsi:nil, attributes whose qualified name contains
XMLSchema-instance are skipped, the rest record one occurrence each, then
the walk recurses into children. -/
def client_process_element (n : XmlNode)
    (l : List (String × ClientFieldStats)) (parent_path : String) :
    List (String × ClientFieldStats) :=
  match n with
  | XmlNode.elem tag attrib text children =>
    let cur := parent_path ++ "/" ++ get_local_name tag
    let l1 :=
      if children.length > 0 then l
      else clientUpdate l cur (clientLeafUpdate text (pyGet attrib xsiNilName))
    let l2 := clientProcessAttrs attrib l1 cur
    clientProcessChildren children l2 cur

/-- Attribute loop of the client extractor, skipping XSI attributes. -/
def clientProcessAttrs (attrs : List (String × String))
    (l : List (String × ClientFieldStats)) (cur : String) :
    List (String × ClientFieldStats) :=
  match attrs with
  | [] => l
  | (an, av) :: rest =>
      if strContains an "XMLSchema-instance" then
        clientProcessAttrs rest l cur
      else
        clientProcessAttrs rest
          (clientUpdate l (cur ++ "/@" ++ get_local_name an)
            (clientAttrUpdate av)) cur

/-- Child loop of the client extractor. -/
def clientProcessChildren (cs : List XmlNode)
    (l : List (String × ClientFieldStats)) (cur : String) :
    List (String × ClientFieldStats) :=
  match cs with
  | [] => l
  | c :: rest => clientProcessChildren rest (client_process_element c l cur) cur

end

/-- Embeds client.extract_observations_from_xml: parse (modelled by its
outcome), walk, then convert the per-path stats into observation dicts
carrying the submitted metadata. -/
def client_extract_observations_from_xml
    (parse : String → Except Unit XmlNode) (xml_content : String)
    (metadata : List (String × String)) : List ClientObservation :=
  match parse xml_content with
  | Except.error _ => []
  | Except.ok root =>
      (client_process_element root [] "").map (fun e =>
        { metadata := metadata, fieldPath := e.1, count := e.2.count,
          hasNull := e.2.has_null, hasEmpty := e.2.has_empty })

mutual

/-- Field paths the client extractor can mention below a parent path: the
element path for a leaf, one path per non-XSI attribute, and recursively
the paths of the children; XSI attribute paths are absent by
construction. -/
def clientNodePaths (n : XmlNode) (parent_path : String) : List String :=
  match n with
  | XmlNode.elem tag attrib _ children =>
    let cur := parent_path ++ "/" ++ get_local_name tag
    (if children.length > 0 then [] else [cur]) ++
      ((attrib.filter (fun a => !(strContains a.1 "XMLSchema-instance"))).map
        (fun a => cur ++ "/@" ++ get_local_name a.1)) ++
      clientForestPaths children cur

def clientForestPaths (cs : List XmlNode) (cur : String) : List String :=
  match cs with
  | [] => []
  | c :: rest => clientNodePaths c cur ++ clientForestPaths rest cur

end

/-- Childless element carrying only xsi:nil equal to true, the
discriminating input between the two extractor variants. -/
def nilOnlyElem : XmlNode := XmlNode.elem "Root" [(xsiNilName, "true")] none []

/-- Result of the client extractor on nilOnlyElem. -/
def clientNilResult : List ClientObservation :=
  [{ metadata := [], fieldPath := "/Root", count := 1, hasNull := true,
     hasEmpty := false }]

/-- Result of the engine extractor on nilOnlyElem. -/
def engineNilResult : List CatalogObservationDto :=
  [{ metadata := [], field_path := "/Root", count := 1, has_null := false,
     has_empty := true },
   { metadata := [], field_path := "/Root/@nil", count := 1,
     has_null := false, has_empty := false }]

/-- Outcome of one HTTP POST attempt as observed by
TestGenApiClient.submit_observations: a response with status code and
text, a requests.Timeout, or another requests.RequestException. -/
inductive ReqOutcome : Type where
  | status : Nat → String → ReqOutcome
  | timeout : ReqOutcome
  | netError : String → ReqOutcome
deriving Repr, DecidableEq

/-- Embeds SubmissionResult (testgen/api/client.py). -/
structure SubmissionResult where
  success : Bool
  observation_count : Nat
  error_message : Option String
deriving Repr, DecidableEq

/-- Constructor mirroring the Python SubmissionResult(...) calls. -/
def mkResult (s : Bool) (n : Nat) (e : Option String) : SubmissionResult :=
  { success := s, observation_count := n, error_message := e }

/-- Result of a submit_observations call together with its observable
side effects: the time.sleep durations and the number of HTTP requests
performed. -/
structure SubmitTrace where
  result : SubmissionResult
  sleeps : List ℚ
  requests : Nat
deriving Repr, DecidableEq

/-- Constructor for a submit trace. -/
def mkTrace (r : SubmissionResult) (sl : List ℚ) (rq : Nat) : SubmitTrace :=
  { result := r, sleeps := sl, requests := rq }

/-- Embeds the retry loop of TestGenApiClient.submit_observations, with
the sequence of attempt outcomes as an oracle.  Python floats for
retry_delay are modelled as rationals.  The loop runs for attempt in
range(max_retries); 200, 201 and 204 succeed, a status of 500 or more
retries after sleeping retry_delay times attempt plus one unless this was
the last attempt, any other status fails immediately, and Timeout or
RequestException retry like a 5xx with their own messages; falling out of
the loop yields the Max retries exceeded failure. -/
def submit_loop (max_retries : Nat) (retry_delay : ℚ)
    (outcomes : Nat → ReqOutcome) (n_obs : Nat) (attempt : Nat)
    (sleeps : List ℚ) : SubmitTrace :=
  if attempt < max_retries then
    match outcomes attempt with
    | ReqOutcome.status c txt =>
        if c = 200 ∨ c = 201 ∨ c = 204 then
          mkTrace (mkResult true n_obs none) sleeps (attempt + 1)
        else if 500 ≤ c then
          if attempt < max_retries - 1 then
            submit_loop max_retries retry_delay outcomes n_obs (attempt + 1)
              (sleeps ++ [retry_delay * ((attempt : ℚ) + 1)])
          else
            mkTrace (mkResult false 0 (some ("Server error: " ++
              Nat.repr c ++ " - " ++ txt))) sleeps (attempt + 1)
        else
          mkTrace (mkResult false 0 (some ("Client error: " ++
            Nat.repr c ++ " - " ++ txt))) sleeps (attempt + 1)
    | ReqOutcome.timeout =>
        if attempt < max_retries - 1 then
          submit_loop max_retries retry_delay outcomes n_obs (attempt + 1)
            (sleeps ++ [retry_delay * ((attempt : ℚ) + 1)])
        else
          mkTrace (mkResult false 0 (some "Request timed out")) sleeps
            (attempt + 1)
    | ReqOutcome.netError m =>
        if attempt < max_retries - 1 then
          submit_loop max_retries retry_delay outcomes n_obs (attempt + 1)
            (sleeps ++ [retry_delay * ((attempt : ℚ) + 1)])
        else
          mkTrace (mkResult false 0 (some ("Network error: " ++ m))) sleeps
            (attempt + 1)
  else
    mkTrace (mkResult false 0 (some "Max retries exceeded")) sleeps attempt
termination_by max_retries - attempt
decreasing_by all_goals omega

/-- Embeds TestGenApiClient.submit_observations: an empty observation
list short-circuits to a success result with count zero and no request;
otherwise the retry loop runs from attempt zero. -/
def client_submit_observations (max_retries : Nat) (retry_delay : ℚ)
    (outcomes : Nat → ReqOutcome) (_context_id : String)
    (observations : List ClientObservation) : SubmitTrace :=
  if observations.isEmpty then mkTrace (mkResult true 0 none) [] 0
  else submit_loop max_retries retry_delay outcomes observations.length 0 []

/-- Outcomes that submit_observations treats as success: 200, 201, 204. -/
def isSuccessOutcome : ReqOutcome → Bool
  | ReqOutcome.status c _ => c == 200 || c == 201 || c == 204
  | _ => false

/-- Outcomes that submit_observations retries: a non-success status of 500
or more, a timeout, or a network failure. -/
def isRetriableOutcome : ReqOutcome → Bool
  | ReqOutcome.status c _ => !(c == 200 || c == 201 || c == 204) && 500 ≤ c
  | ReqOutcome.timeout => true
  | ReqOutcome.netError _ => true

/-- Linear-backoff sleep durations after the first k attempts: the j-th
retry sleeps retry_delay times j plus one. -/
def delaysList (d : ℚ) (k : Nat) : List ℚ :=
  (List.range k).map (fun (j : ℕ) => d * ((j : ℚ) + 1))

/-- Concrete observation for the C8 witness. -/
def c8Obs : ClientObservation :=
  { metadata := [], fieldPath := "/Root", count := 1, hasNull := false,
    hasEmpty := false }

/-- Concrete outcome sequence for the C8 witness: one 503, then 200. -/
def c8Out : Nat → ReqOutcome := fun j =>
  if j = 0 then ReqOutcome.status 503 "boom" else ReqOutcome.status 200 "ok"

/-- Relevant slice of DistributionConfig (testgen/generation/distributions.py):
the default repeat_range and the per-path repeatRange overrides (the two
accepted spelling variants of the override key feed the same lookup, and a
meta-file override is always a two-element list, modelled as a pair). -/
structure DistributionConfigL where
  repeat_range : Nat × Nat
  field_overrides : List (String × (Nat × Nat))
deriving Repr, DecidableEq

/-- Embeds DistributionConfig._get_field_repeat_range. -/
def get_field_repeat_range (cfg : DistributionConfigL) (field_path : String) :
    Nat × Nat :=
  match cfg.field_overrides.find? (fun e => e.1 == field_path) with
  | some e => e.2
  | none => cfg.repeat_range

/-- Effective bounds computed by DistributionConfig.get_repeat_count before
the random draw: XSD constraints merged with the configured range, then the
normalization `if effective_min > effective_max` and then the cap of the
max (only) at 20, in that order, exactly as in the source. -/
def get_repeat_count_bounds (cfg : DistributionConfigL) (field_path : String)
    (min_occurs : Nat) (max_occurs : Option Nat) : Nat × Nat :=
  let r := get_field_repeat_range cfg field_path
  let e :=
    match max_occurs with
    | none => (max min_occurs r.1, r.2)
    | some m => (max min_occurs 1, if m > 0 then min m r.2 else r.2)
  let e2 := if e.1 > e.2 then (e.1, e.1) else e
  if e2.2 > 20 then (e2.1, 20) else e2

/-- Embeds random.randint(a, b): a uniform draw from the inclusive range,
raising ValueError when the range is empty.  The drawn value is recovered
from an arbitrary oracle number r so that every member of the range is
reachable and no other value is. -/
def py_randint (r : Nat) (a b : Nat) : Except String Nat :=
  if a ≤ b then Except.ok (a + r % (b - a + 1))
  else Except.error "empty range for randrange"

/-- Embeds DistributionConfig.get_repeat_count: compute the effective
bounds, then draw with random.randint. -/
def get_repeat_count (cfg : DistributionConfigL) (r : Nat)
    (field_path : String) (min_occurs : Nat) (max_occurs : Option Nat) :
    Except String Nat :=
  let b := get_repeat_count_bounds cfg field_path min_occurs max_occurs
  py_randint r b.1 b.2

/-- Default DistributionConfig repeat range (1, 3) with no overrides. -/
def dcfgDefault : DistributionConfigL :=
  { repeat_range := (1, 3), field_overrides := [] }

/-- Embeds XsdSimpleType (testgen/xsd/model.py).  The numeric bound facets
are carried as data for the oracle-backed value producers. -/
structure XsdSimpleTypeL where
  name : Option String
  base_type : String
  enumeration : Option (List String)
  pattern : Option String
  min_value : Option Int
  max_value : Option Int
  min_length : Option Nat
  max_length : Option Nat
  total_digits : Option Nat
  fraction_digits : Option Nat
deriving Repr, DecidableEq

/-- ASCII fragment of Python str.lower, enough for XSD base type tokens. -/
def asciiLowerChar (c : Char) : Char :=
  if 'A' ≤ c && c ≤ 'Z' then Char.ofNat (c.toNat + 32) else c

/-- Lowercasing used on base_type in the generator and value generator. -/
def asciiLower (s : String) : String := String.mk (s.data.map asciiLowerChar)

/-- The expression base_type.lower() if base_type else "string" used in
both _generate_text_value and XsdTypeValueGenerator.generate. -/
def pyBaseLower (bt : String) : String :=
  if bt == "" then "string" else asciiLower bt

/-- Oracle for every random or Faker-backed value drawn during generation.
Each function takes the current draw counter (tick), so distinct calls are
independent and quantifying over the oracle covers every run. -/
structure GenOracle where
  include_opt : Nat → String → Bool
  be_null : Nat → String → Bool
  be_empty : Nat → String → Bool
  registry : Nat → String → String
  draw : Nat → Nat
  choice_ix : Nat → Nat
  pattern_val : Nat → String → String
  int_val : Nat → XsdSimpleTypeL → String
  dec_val : Nat → XsdSimpleTypeL → String
  date_val : Nat → String
  datetime_val : Nat → String
  bool_val : Nat → Bool
  str_val : Nat → XsdSimpleTypeL → String
  pystr : Nat → String

/-- Embeds random.choice over a string list: a member selected by the
oracle index (empty lists cannot reach this call in the embedded code). -/
def py_choice (ix : Nat) (l : List String) : String :=
  l.getD (ix % l.length) ""

/-- Embeds XsdTypeValueGenerator.generate (testgen/generation/values.py):
priority enumeration, then pattern, then base-type dispatch.  The leaf
producers of the non-enumeration branches wrap random/Faker and are
oracle-backed; the decision tree is the source's.  Returns the value and
the advanced tick. -/
def xsd_generate (o : GenOracle) (type_def : Option XsdSimpleTypeL)
    (t : Nat) : String × Nat :=
  match type_def with
  | none => (o.pystr t, t + 1)
  | some td =>
      if !(td.enumeration.getD []).isEmpty then
        (py_choice (o.choice_ix t) (td.enumeration.getD []), t + 1)
      else if !(td.pattern.getD "").isEmpty then
        (o.pattern_val t (td.pattern.getD ""), t + 1)
      else
        let base := pyBaseLower td.base_type
        if base = "integer" ∨ base = "int" ∨ base = "long" ∨
            base = "short" ∨ base = "byte" then
          (o.int_val t td, t + 1)
        else if base = "decimal" ∨ base = "float" ∨ base = "double" then
          (o.dec_val t td, t + 1)
        else if base = "date" then
          (o.date_val t, t + 1)
        else if base = "datetime" ∨ base = "dateTime" then
          (o.datetime_val t, t + 1)
        else if base = "boolean" then
          (if o.bool_val t then "true" else "false", t + 1)
        else
          (o.str_val t td, t + 1)

/-- Truthiness test semantic_types.get(path) of _generate_text_value: a
binding exists and is neither null nor the empty string. -/
def lookupSem (sem : List (String × Option String)) (path : String) :
    Option String :=
  match sem.find? (fun e => e.1 == path) with
  | some e =>
      match e.2 with
      | some s => if s == "" then none else some s
      | none => none
  | none => none

/-- Condition under which the empty-string branch of _generate_text_value
returns: the element has a type whose lowered base is string and which is
not enumerated, and the distribution draw says empty. -/
def empty_rule_fires (o : GenOracle) (type_def : Option XsdSimpleTypeL)
    (full_path : String) (t : Nat) : Bool :=
  match type_def with
  | some td =>
      pyBaseLower td.base_type == "string" && !td.enumeration.isSome &&
        o.be_empty t full_path
  | none => false

/-- Semantic-type lookup step of _generate_text_value followed by the XSD
generator fallback. -/
def semantic_or_xsd (o : GenOracle) (sem : List (String × Option String))
    (type_def : Option XsdSimpleTypeL) (full_path : String) (t : Nat) :
    String × Nat :=
  match lookupSem sem full_path with
  | some tok => (o.registry t tok, t + 1)
  | none => xsd_generate o type_def t

/-- Embeds XmlGenerator._generate_text_value
(testgen/generation/generator.py): the empty-string check runs first (its
distribution draw is consulted only for non-enum string-based types), then
the semantic-type lookup, then the XSD generator fallback. -/
def generate_text_value (o : GenOracle)
    (sem : List (String × Option String)) (type_def : Option XsdSimpleTypeL)
    (full_path : String) (t : Nat) : String × Nat :=
  match type_def with
  | some td =>
      if pyBaseLower td.base_type == "string" && !td.enumeration.isSome then
        if o.be_empty t full_path then ("", t + 1)
        else semantic_or_xsd o sem type_def full_path (t + 1)
      else semantic_or_xsd o sem type_def full_path t
  | none => semantic_or_xsd o sem type_def full_path t

/-- Simple string-typed XSD leaf type with no facets. -/
def c5Type : XsdSimpleTypeL :=
  { name := none, base_type := "string", enumeration := none,
    pattern := none, min_value := none, max_value := none,
    min_length := none, max_length := none, total_digits := none,
    fraction_digits := none }

/-- All-constant oracle used by concrete counterexamples and witnesses. -/
def constOracle : GenOracle :=
  { include_opt := fun _ _ => true, be_null := fun _ _ => false,
    be_empty := fun _ _ => true, registry := fun _ tok => tok ++ ":value",
    draw := fun _ => 0, choice_ix := fun _ => 0,
    pattern_val := fun _ p => p, int_val := fun _ _ => "1",
    dec_val := fun _ _ => "1.0", date_val := fun _ => "2020-01-01",
    datetime_val := fun _ => "2020-01-01T00:00:00",
    bool_val := fun _ => true, str_val := fun _ _ => "s",
    pystr := fun _ => "p" }

/-- Embeds XsdAttribute (testgen/xsd/model.py); type_def always holds a
simple type (the dataclass default is an empty XsdSimpleType). -/
structure XsdAttributeL where
  name : String
  type_def : XsdSimpleTypeL
  use : String
  default : Option String
  fixed : Option String
deriving Repr, DecidableEq

/-- Embeds XsdElement (testgen/xsd/model.py): name, min_occurs,
max_occurs (None is unbounded), nillable, optional type_def, attributes,
children and the derived full_path.  content_model is omitted: the
generator walk never reads it. -/
inductive XsdElementL : Type where
  | mk : String → Nat → Option Nat → Bool → Option XsdSimpleTypeL →
      List XsdAttributeL → List XsdElementL → String → XsdElementL
deriving Repr

def XsdElementL.name : XsdElementL → String
  | .mk x _ _ _ _ _ _ _ => x

def XsdElementL.min_occurs : XsdElementL → Nat
  | .mk _ x _ _ _ _ _ _ => x

def XsdElementL.max_occurs : XsdElementL → Option Nat
  | .mk _ _ x _ _ _ _ _ => x

def XsdElementL.nillable : XsdElementL → Bool
  | .mk _ _ _ x _ _ _ _ => x

def XsdElementL.type_def : XsdElementL → Option XsdSimpleTypeL
  | .mk _ _ _ _ x _ _ _ => x

def XsdElementL.attributes : XsdElementL → List XsdAttributeL
  | .mk _ _ _ _ _ x _ _ => x

def XsdElementL.children : XsdElementL → List XsdElementL
  | .mk _ _ _ _ _ _ x _ => x

def XsdElementL.full_path : XsdElementL → String
  | .mk _ _ _ _ _ _ _ x => x

/-- Embeds the fixed/default/type tail of
XmlGenerator._generate_attribute_value: a truthy fixed value wins
unconditionally, a truthy default is used when the use-default draw says
so, otherwise the XSD value generator runs on the attribute type. -/
def attr_value_core (o : GenOracle) (a : XsdAttributeL) (t : Nat) :
    Option String × Nat :=
  if !(a.fixed.getD "").isEmpty then (some (a.fixed.getD ""), t)
  else if !(a.default.getD "").isEmpty then
    if o.include_opt t "_use_default" then (some (a.default.getD ""), t + 1)
    else
      let r := xsd_generate o (some a.type_def) (t + 1)
      (some r.1, r.2)
  else
    let r := xsd_generate o (some a.type_def) t
    (some r.1, r.2)

/-- Embeds XmlGenerator._generate_attribute_value: a non-required
attribute is first gated by the fill-rate draw on its path. -/
def generate_attribute_value (o : GenOracle) (a : XsdAttributeL)
    (parent_path : String) (t : Nat) : Option String × Nat :=
  if a.use == "required" then attr_value_core o a t
  else
    if o.include_opt t (parent_path ++ "/@" ++ a.name) then
      attr_value_core o a (t + 1)
    else (none, t + 1)

/-- Attribute loop of XmlGenerator._generate_element: values generated in
declaration order, None values skipped. -/
def generate_attrs (o : GenOracle) (attrs : List XsdAttributeL)
    (parent_path : String) (t : Nat) : List (String × String) × Nat :=
  match attrs with
  | [] => ([], t)
  | a :: rest =>
      let v := generate_attribute_value o a parent_path t
      let vs := generate_attrs o rest parent_path v.2
      match v.1 with
      | some s => ((a.name, s) :: vs.1, vs.2)
      | none => (vs.1, vs.2)

mutual

/-- Embeds XmlGenerator._generate_element: skip draw for optional
elements, nil draw for nillable ones (emitting the xsi:nil element),
attribute generation, leaf text via _generate_text_value, recursive child
generation via the repeat count (whose random.randint failure propagates
as an error), and the pruning of optional childless containers. -/
def generate_element (o : GenOracle) (cfg : DistributionConfigL)
    (sem : List (String × Option String)) (d : XsdElementL) (t : Nat) :
    Except String (Option XmlNode) × Nat :=
  match d with
  | XsdElementL.mk nm mo _Mo nillable td attrs children fp =>
    if mo == 0 && !(o.include_opt t fp) then (Except.ok none, t + 1)
    else
      gen_elem_core o cfg sem nm mo nillable td attrs children fp
        (if mo == 0 then t + 1 else t)
termination_by (sizeOf d, 6)

/-- Nil-check step of _generate_element after the optional-skip check. -/
def gen_elem_core (o : GenOracle) (cfg : DistributionConfigL)
    (sem : List (String × Option String)) (nm : String) (mo : Nat)
    (nillable : Bool) (td : Option XsdSimpleTypeL)
    (attrs : List XsdAttributeL) (children : List XsdElementL) (fp : String)
    (t1 : Nat) : Except String (Option XmlNode) × Nat :=
  if nillable && o.be_null t1 fp then
    (Except.ok (some (XmlNode.elem nm [(xsiNilName, "true")] none [])),
      t1 + 1)
  else
    gen_elem_body o cfg sem nm mo td attrs children fp
      (if nillable then t1 + 1 else t1)
termination_by (sizeOf children, 8)

/-- Attribute, leaf-text and child-generation steps of _generate_element,
including the pruning of optional childless containers. -/
def gen_elem_body (o : GenOracle) (cfg : DistributionConfigL)
    (sem : List (String × Option String)) (nm : String) (mo : Nat)
    (td : Option XsdSimpleTypeL) (attrs : List XsdAttributeL)
    (children : List XsdElementL) (fp : String) (t2 : Nat) :
    Except String (Option XmlNode) × Nat :=
  if children.isEmpty then
    (Except.ok (some (XmlNode.elem nm (generate_attrs o attrs fp t2).1
      (some (generate_text_value o sem td fp
        (generate_attrs o attrs fp t2).2).1) [])),
      (generate_text_value o sem td fp (generate_attrs o attrs fp t2).2).2)
  else
    match generate_children o cfg sem children
        (generate_attrs o attrs fp t2).2 with
    | (Except.error e, t4) => (Except.error e, t4)
    | (Except.ok cs, t4) =>
        if cs.isEmpty && mo == 0 then (Except.ok none, t4)
        else
          (Except.ok (some (XmlNode.elem nm
            (generate_attrs o attrs fp t2).1 none cs)), t4)
termination_by (sizeOf children, 5)

/-- Child-definition loop of _generate_element: compute the repeat count
for each child path, then generate that many instances. -/
def generate_children (o : GenOracle) (cfg : DistributionConfigL)
    (sem : List (String × Option String)) (cds : List XsdElementL)
    (t : Nat) : Except String (List XmlNode) × Nat :=
  match cds with
  | [] => (Except.ok [], t)
  | cd :: rest =>
      match get_repeat_count cfg (o.draw t) cd.full_path cd.min_occurs
          cd.max_occurs with
      | Except.error e => (Except.error e, t + 1)
      | Except.ok count =>
          match generate_repeat o cfg sem cd count (t + 1) with
          | (Except.error e, t2) => (Except.error e, t2)
          | (Except.ok cs1, t2) =>
              match generate_children o cfg sem rest t2 with
              | (Except.error e, t3) => (Except.error e, t3)
              | (Except.ok cs2, t3) => (Except.ok (cs1 ++ cs2), t3)
termination_by (sizeOf cds, 4)

/-- Repetition loop for one child definition: generate count instances,
appending the non-None results in order. -/
def generate_repeat (o : GenOracle) (cfg : DistributionConfigL)
    (sem : List (String × Option String)) (cd : XsdElementL) (n : Nat)
    (t : Nat) : Except String (List XmlNode) × Nat :=
  match n with
  | 0 => (Except.ok [], t)
  | Nat.succ k =>
      match generate_element o cfg sem cd t with
      | (Except.error e, t1) => (Except.error e, t1)
      | (Except.ok none, t1) => generate_repeat o cfg sem cd k t1
      | (Except.ok (some c), t1) =>
          match generate_repeat o cfg sem cd k t1 with
          | (Except.error e, t2) => (Except.error e, t2)
          | (Except.ok cs, t2) => (Except.ok (c :: cs), t2)
termination_by (sizeOf cd, n + 7)

end

mutual

/-- Condition under which the meta configuration does not bind a semantic
type to any enumerated leaf of the subtree: at each childless definition
whose type declares a nonempty enumeration, the semantic lookup of its
full path is unbound. -/
def semFreeEnums (sem : List (String × Option String)) :
    XsdElementL → Bool
  | XsdElementL.mk _ _ _ _ td _ cs fp =>
    (match td with
     | some tdv =>
         (match tdv.enumeration with
          | some l =>
              if cs.isEmpty && !l.isEmpty then (lookupSem sem fp).isNone
              else true
          | none => true)
     | none => true) && semFreeForest sem cs

def semFreeForest (sem : List (String × Option String)) :
    List XsdElementL → Bool
  | [] => true
  | d :: rest => semFreeEnums sem d && semFreeForest sem rest

end

mutual

/-- Enumeration soundness of a generated node against its definition:
whenever the definition is a childless element whose type declares a
nonempty enumeration, an emitted text is a member of that enumeration;
child nodes match some child definition recursively.  A nil element
carries no text and satisfies the condition vacuously. -/
def enumLeafOk (d : XsdElementL) (n : XmlNode) : Bool :=
  match d, n with
  | XsdElementL.mk _ _ _ _ td _ dcs _, XmlNode.elem _ _ text cs =>
      (match text with
       | some s =>
           (match td with
            | some tdv =>
                (match tdv.enumeration with
                 | some l =>
                     if dcs.isEmpty && !l.isEmpty then l.contains s else true
                 | none => true)
            | none => true)
       | none => true) && enumForestOk dcs cs

def enumForestOk (ds : List XsdElementL) (cs : List XmlNode) : Bool :=
  match cs with
  | [] => true
  | c :: rest => enumAnyOk ds c && enumForestOk ds rest

def enumAnyOk (ds : List XsdElementL) (c : XmlNode) : Bool :=
  match ds with
  | [] => false
  | d :: rest => enumLeafOk d c || enumAnyOk rest c

end

/-- Enumeration soundness of all instances generated for one child
definition, given it for single instances. -/
def GenEnumOk (o : GenOracle) (cfg : DistributionConfigL)
    (sem : List (String × Option String)) (d : XsdElementL) : Prop :=
  ∀ t tr t2, semFreeEnums sem d = true →
    generate_element o cfg sem d t = (Except.ok (some tr), t2) →
    enumLeafOk d tr = true

/-- Enumerated string simple type used by the C7 artifacts. -/
def statusType : XsdSimpleTypeL :=
  { name := none, base_type := "string",
    enumeration := some ["ACTIVE", "INACTIVE", "PENDING"], pattern := none,
    min_value := none, max_value := none, min_length := none,
    max_length := none, total_digits := none, fraction_digits := none }

/-- Mandatory enumerated leaf element at path /status. -/
def statusDef : XsdElementL :=
  XsdElementL.mk "status" 1 (some 1) false (some statusType) [] [] "/status"

/-- Modelled from the spec: lifecycle state of the fire-and-forget engine
including the shutdown flag.  The shutdown(timeout) operation is missing
from the copy of ceremony_catalog_sdk.py under src (only its tests call
sdk.shutdown), so the drain contract of spec section 4.6 is modelled
here. -/
structure EngineLifecycle where
  initialized : Bool
  shut_down : Bool
  queue : List ObservationWorkItem
  capacity : Int
deriving Repr, DecidableEq

/-- Modelled from the spec: shutdown(timeout) returns true immediately
when the engine is not initialized; otherwise it signals the worker to
exit after the queue is drained and waits up to the timeout — a clean
drain within the timeout empties the queue and returns true, an expired
timeout returns false; either way the engine is marked shut down.  Real
elapsed time is abstracted into the drain-within-timeout observable. -/
def sh_shutdown (st : EngineLifecycle) (drain_within_timeout : Bool) :
    Bool × EngineLifecycle :=
  if !st.initialized then (true, st)
  else
    if drain_within_timeout then
      (true, { st with shut_down := true, queue := [] })
    else (false, { st with shut_down := true })

/-- Modelled from the spec: the intake path of the engine with the
shutdown flag honored — an intake call on an uninitialized or shut-down
engine silently returns, as do the blank-context, empty-extraction and
full-queue cases; otherwise one work item is enqueued. -/
def sh_submit (st : EngineLifecycle) (obs : List CatalogObservationDto)
    (ctx : Option String) : EngineLifecycle :=
  if !st.initialized || st.shut_down then st
  else if ctxBlank ctx then st
  else if obs.isEmpty then st
  else if 0 < st.capacity && st.capacity ≤ (st.queue.length : Int) then st
  else
    match ctx with
    | some c => { st with queue := st.queue ++
        [{ context_id := c, observations := obs }] }
    | none => st

/-- Concrete uninitialized lifecycle state for the C6 witness. -/
def lcUninit : EngineLifecycle :=
  { initialized := false, shut_down := false, queue := [], capacity := 10 }

/-- Concrete initialized lifecycle state for the C6 witness. -/
def lcInit : EngineLifecycle :=
  { initialized := true, shut_down := false, queue := [], capacity := 10 }

/-- Induction principle for the nested inductive XmlNode: the motive holds
for a node once it holds for every child. -/
theorem xmlNodeIndOn (P : XmlNode → Prop)
    (h : ∀ t a x cs, (∀ c ∈ cs, P c) → P (XmlNode.elem t a x cs)) :
    ∀ n, P n
  | XmlNode.elem t a x cs =>
    h t a x cs (fun c hc =>
      have : sizeOf c < sizeOf (XmlNode.elem t a x cs) := by
        have hlt := List.sizeOf_lt_of_mem hc
        simp only [XmlNode.elem.sizeOf_spec]
        omega
      xmlNodeIndOn P h c)
termination_by n => sizeOf n

theorem enqueue_work_silent (st : SdkState)
    (observations : List CatalogObservationDto) (context_id : Option String) :
    (st.initialized = false → enqueue_work st observations context_id = st) ∧
    (ctxBlank context_id = true → enqueue_work st observations context_id = st) ∧
    (observations = [] → enqueue_work st observations context_id = st) ∧
    (∀ q, st.queue = some q → queue_full q = true →
      enqueue_work st observations context_id = st) := by
  refine ⟨?_, ?_, ?_, ?_⟩
  · intro h
    simp [enqueue_work, h]
  · intro h
    unfold enqueue_work
    by_cases hinit : (!st.initialized || st.queue.isNone) = true
    · simp [hinit]
    · simp [hinit, h]
  · intro h
    subst h
    unfold enqueue_work
    by_cases hinit : (!st.initialized || st.queue.isNone) = true
    · simp [hinit]
    · by_cases hc : ctxBlank context_id = true <;> simp [hinit, hc]
  · intro q hq hfull
    unfold enqueue_work
    by_cases hinit : (!st.initialized || st.queue.isNone) = true
    · simp [hinit]
    · by_cases hc : ctxBlank context_id = true
      · simp [hinit, hc]
      · by_cases hobs : observations.isEmpty
        · simp [hinit, hc, hobs]
        · cases context_id with
          | none => simp [ctxBlank] at hc
          | some c => simp [hinit, hc, hobs, hq, hfull]

/-- C1: every input to the three intake operations — None XML data,
malformed XML (a failing parse), a None, empty or whitespace-only
contextId, None metadata — is accepted without any exception (the embedded
operations are total functions into SdkState, with every fallible Python
step modelled and absorbed), and whenever the engine is not initialized,
the contextId is None or blank after trim, extraction yields zero
observations, or the queue is full, the state — in particular the queue —
is left unchanged, so no work item is enqueued. -/
theorem c1_intake_silent_on_all_inputs
    (parseB : List Nat → Except Unit XmlNode)
    (parseS : String → Except Unit XmlNode)
    (st : SdkState) (bytes_data : Option (List Nat))
    (string_data : Option String) (element_data : Option XmlNode)
    (context_id : Option String)
    (metadata : Option (List (String × String))) :
    (st.initialized = false ∨ ctxBlank context_id = true →
      submit_observations_bytes parseB st bytes_data context_id metadata = st ∧
      submit_observations_string parseS st string_data context_id metadata = st ∧
      submit_observations_element st element_data context_id metadata = st) ∧
    (extract_observations_from_bytes parseB bytes_data metadata = [] →
      submit_observations_bytes parseB st bytes_data context_id metadata = st) ∧
    (extract_observations_from_string parseS string_data metadata = [] →
      submit_observations_string parseS st string_data context_id metadata = st) ∧
    (extract_observations_from_element element_data metadata = [] →
      submit_observations_element st element_data context_id metadata = st) ∧
    (∀ q, st.queue = some q → queue_full q = true →
      submit_observations_bytes parseB st bytes_data context_id metadata = st ∧
      submit_observations_string parseS st string_data context_id metadata = st ∧
      submit_observations_element st element_data context_id metadata = st) := by
  refine ⟨?_, ?_, ?_, ?_, ?_⟩
  · rintro (h | h)
    · exact ⟨(enqueue_work_silent st _ _).1 h, (enqueue_work_silent st _ _).1 h,
        (enqueue_work_silent st _ _).1 h⟩
    · exact ⟨(enqueue_work_silent st _ _).2.1 h, (enqueue_work_silent st _ _).2.1 h,
        (enqueue_work_silent st _ _).2.1 h⟩
  · intro h
    exact (enqueue_work_silent st _ _).2.2.1 h
  · intro h
    exact (enqueue_work_silent st _ _).2.2.1 h
  · intro h
    exact (enqueue_work_silent st _ _).2.2.1 h
  · intro q hq hfull
    exact ⟨(enqueue_work_silent st _ _).2.2.2 q hq hfull,
      (enqueue_work_silent st _ _).2.2.2 q hq hfull,
      (enqueue_work_silent st _ _).2.2.2 q hq hfull⟩

/-- Witness for C1 at concrete inputs: an uninitialized engine ignores a
string submission, and an initialized engine with a full capacity-one queue
ignores an element submission. -/
theorem c1_intake_silent_on_all_inputs_witness :
    submit_observations_string (fun _ => Except.error ()) sdkStateUninit
      (some "<Root") (some "ctx") none = sdkStateUninit ∧
    submit_observations_element sdkStateFull
      (some (XmlNode.elem "Root" [] (some "x") [])) (some "ctx") none =
      sdkStateFull := by
  constructor
  · exact ((c1_intake_silent_on_all_inputs (fun _ => Except.error ())
      (fun _ => Except.error ()) sdkStateUninit
      none (some "<Root") none (some "ctx") none).1 (Or.inl rfl)).2.1
  · exact ((c1_intake_silent_on_all_inputs (fun _ => Except.error ())
      (fun _ => Except.error ()) sdkStateFull
      none none (some (XmlNode.elem "Root" [] (some "x") [])) (some "ctx")
      none).2.2.2.2 _ rfl (by decide)).2.2

theorem slashPath_append (p q : String) (h : SlashPath p) : SlashPath (p ++ q) := by
  obtain ⟨t, rfl⟩ := h
  exact ⟨t ++ q, String.append_assoc "/" t q⟩

theorem mem_forestPaths (cs : List XmlNode) (cur : String) (c : XmlNode)
    (hc : c ∈ cs) (q : String) (hq : q ∈ nodePaths c cur) :
    q ∈ forestPaths cs cur := by
  induction cs with
  | nil => cases hc
  | cons d rest ih =>
      rw [forestPaths]
      rcases List.mem_cons.mp hc with h | h
      · subst h
        exact List.mem_append_left _ hq
      · exact List.mem_append_right _ (ih h)

theorem forestPaths_slash_aux (cs : List XmlNode) (cur : String)
    (hind : ∀ c ∈ cs, ∀ pp, pp = "" ∨ SlashPath pp →
      ∀ q ∈ nodePaths c pp, SlashPath q)
    (hcur : cur = "" ∨ SlashPath cur) :
    ∀ q ∈ forestPaths cs cur, SlashPath q := by
  induction cs with
  | nil => intro q hq; simp [forestPaths] at hq
  | cons d rest ih =>
      intro q hq
      rw [forestPaths] at hq
      rcases List.mem_append.mp hq with h | h
      · exact hind d (List.mem_cons_self d rest) cur hcur q h
      · exact ih (fun c hc => hind c (List.mem_cons_of_mem d hc)) q h

theorem slashPath_cur (pp name : String) (hpp : pp = "" ∨ SlashPath pp) :
    SlashPath (pp ++ "/" ++ name) := by
  rcases hpp with h | h
  · subst h
    exact slashPath_append "/" name ⟨"", rfl⟩
  · exact slashPath_append _ name (slashPath_append pp "/" h)

/-- All paths the extractor can mention below an empty or slash-rooted
parent are slash-rooted. -/
theorem nodePaths_slash (n : XmlNode) :
    ∀ pp, pp = "" ∨ SlashPath pp → ∀ q ∈ nodePaths n pp, SlashPath q := by
  induction n using xmlNodeIndOn with
  | _ tag attrib text children ih =>
    intro pp hpp q hq
    rw [nodePaths] at hq
    have hcur : SlashPath (pp ++ "/" ++ get_local_name tag) :=
      slashPath_cur pp (get_local_name tag) hpp
    rcases List.mem_append.mp hq with h | h
    · rcases List.mem_append.mp h with h1 | h1
      · by_cases hlen : children.length > 0
        · simp [hlen] at h1
        · simp [hlen] at h1
          subst h1
          exact hcur
      · obtain ⟨a, _, rfl⟩ := List.mem_map.mp h1
        exact slashPath_append _ _ (slashPath_append _ "/@" hcur)
    · exact forestPaths_slash_aux children _
        (fun c hc => ih c hc) (Or.inr hcur) q h

theorem bump_field_path (s : FieldStatistics) (v : Option String) :
    (s.bump v).field_path = s.field_path := by
  unfold FieldStatistics.bump
  cases v with
  | none => rfl
  | some x => by_cases h : (x == "" || pyBlank x) = true <;> simp [h]

theorem bump_metadata (s : FieldStatistics) (v : Option String) :
    (s.bump v).metadata = s.metadata := by
  unfold FieldStatistics.bump
  cases v with
  | none => rfl
  | some x => by_cases h : (x == "" || pyBlank x) = true <;> simp [h]

theorem bump_total (s : FieldStatistics) (v : Option String) :
    (s.bump v).total_occurrences = s.total_occurrences + 1 := by
  unfold FieldStatistics.bump
  cases v with
  | none => rfl
  | some x => by_cases h : (x == "" || pyBlank x) = true <;> simp [h]

theorem bump_null_some (s : FieldStatistics) (v : String) :
    (s.bump (some v)).null_value_count = s.null_value_count := by
  unfold FieldStatistics.bump
  by_cases h : (v == "" || pyBlank v) = true <;> simp [h]

theorem bump_empty_le (s : FieldStatistics) (v : String) :
    (s.bump (some v)).empty_value_count ≤ s.empty_value_count + 1 := by
  unfold FieldStatistics.bump
  by_cases h : (v == "" || pyBlank v) = true <;> simp [h]

theorem update_inv (md : List (String × String)) (A : String → Prop)
    (l : List FieldStatistics) (p : String) (v : String)
    (h : ExtractInv md A l) (hp : A p) :
    ExtractInv md A (update_field_statistics l p md (some v)) := by
  obtain ⟨hnd, hall⟩ := h
  unfold update_field_statistics
  cases hmem : l.any (fun s => s.field_path == p) with
  | true =>
    rw [if_pos rfl]
    constructor
    · have hpaths : statPaths
          (l.map fun s => if s.field_path == p then s.bump (some v) else s) =
          statPaths l := by
        unfold statPaths
        rw [List.map_map]
        apply List.map_congr_left
        intro s _
        by_cases hfp : s.field_path = p <;> simp [hfp, bump_field_path]
      rw [hpaths]
      exact hnd
    · intro s hs
      obtain ⟨a, ha, rfl⟩ := List.mem_map.mp hs
      obtain ⟨hmd, htot, hsum, hnull, hA⟩ := hall a ha
      by_cases hfp : a.field_path = p
      · rw [if_pos (by simp [hfp])]
        refine ⟨by rw [bump_metadata]; exact hmd, ?_, ?_, ?_, ?_⟩
        · rw [bump_total]; omega
        · rw [bump_total, bump_null_some]
          have := bump_empty_le a v
          omega
        · rw [bump_null_some]; exact hnull
        · rw [bump_field_path]; exact hA
      · rw [if_neg (by simp [hfp])]
        exact ⟨hmd, htot, hsum, hnull, hA⟩
  | false =>
    rw [if_neg Bool.false_ne_true]
    have hnotin : p ∉ statPaths l := by
      intro hin
      obtain ⟨s, hs, hsp⟩ := List.mem_map.mp hin
      have hany : l.any (fun s => s.field_path == p) = true :=
        List.any_eq_true.mpr ⟨s, hs, by simp [hsp]⟩
      rw [hmem] at hany
      exact Bool.false_ne_true hany
    constructor
    · unfold statPaths
      rw [List.map_append]
      simp only [List.map_cons, List.map_nil, bump_field_path]
      rw [List.nodup_append]
      refine ⟨hnd, List.nodup_singleton p, ?_⟩
      simp only [List.disjoint_singleton]
      exact hnotin
    · intro s hs
      rcases List.mem_append.mp hs with hin | hin
      · exact hall s hin
      · have hs2 : s = FieldStatistics.bump
            { field_path := p, metadata := md, total_occurrences := 0,
              null_value_count := 0, empty_value_count := 0 } (some v) := by
          simpa using hin
        subst hs2
        refine ⟨by rw [bump_metadata], by rw [bump_total], ?_, ?_, ?_⟩
        · rw [bump_total, bump_null_some]
          have := bump_empty_le
            { field_path := p, metadata := md, total_occurrences := 0,
              null_value_count := 0, empty_value_count := 0 } v
          simp at this ⊢
          omega
        · rw [bump_null_some]
        · rw [bump_field_path]; exact hp

theorem processAttrs_inv (md : List (String × String)) (A : String → Prop) :
    ∀ (attrs : List (String × String)) (l : List FieldStatistics)
      (cur : String), ExtractInv md A l →
      (∀ a ∈ attrs, A (cur ++ "/@" ++ get_local_name a.1)) →
      ExtractInv md A (processAttrs attrs l cur md) := by
  intro attrs
  induction attrs with
  | nil =>
      intro l cur h _
      rw [processAttrs]
      exact h
  | cons a rest ih =>
      intro l cur h hA
      rw [processAttrs]
      exact ih _ cur
        (update_inv md A l _ a.2 h (hA a (List.mem_cons_self a rest)))
        (fun b hb => hA b (List.mem_cons_of_mem a hb))

theorem processChildren_inv (md : List (String × String)) (A : String → Prop) :
    ∀ (cs : List XmlNode) (l : List FieldStatistics) (cur : String),
      (∀ c ∈ cs, ∀ l2 pp2, ExtractInv md A l2 →
        (∀ q ∈ nodePaths c pp2, A q) →
        ExtractInv md A (process_element_recursive c l2 md pp2)) →
      ExtractInv md A l → (∀ q ∈ forestPaths cs cur, A q) →
      ExtractInv md A (processChildren cs l md cur) := by
  intro cs
  induction cs with
  | nil =>
      intro l cur _ h _
      rw [processChildren]
      exact h
  | cons c rest ih =>
      intro l cur hind h hA
      rw [processChildren]
      refine ih _ cur (fun d hd => hind d (List.mem_cons_of_mem c hd)) ?_ ?_
      · refine hind c (List.mem_cons_self c rest) l cur h ?_
        intro q hq
        exact hA q (by rw [forestPaths]; exact List.mem_append_left _ hq)
      · intro q hq
        exact hA q (by rw [forestPaths]; exact List.mem_append_right _ hq)

/-- Main invariant preservation of the extractor walk: starting from a
statistics dict satisfying the invariant, _process_element_recursive keeps
it, provided the path predicate A holds of every path the walk can mention
below the parent path. -/
theorem process_element_inv (md : List (String × String)) (A : String → Prop)
    (n : XmlNode) :
    ∀ (l : List FieldStatistics) (pp : String), ExtractInv md A l →
      (∀ q ∈ nodePaths n pp, A q) →
      ExtractInv md A (process_element_recursive n l md pp) := by
  induction n using xmlNodeIndOn with
  | _ tag attrib text children ih =>
    intro l pp h hA
    rw [process_element_recursive]
    have hattrA : ∀ a ∈ attrib,
        A (pp ++ "/" ++ get_local_name tag ++ "/@" ++ get_local_name a.1) := by
      intro a ha
      apply hA
      rw [nodePaths]
      exact List.mem_append_left _
        (List.mem_append_right _ (List.mem_map.mpr ⟨a, ha, rfl⟩))
    have hforestA : ∀ q ∈ forestPaths children
        (pp ++ "/" ++ get_local_name tag), A q := by
      intro q hq
      apply hA
      rw [nodePaths]
      exact List.mem_append_right _ hq
    have hstats1 : ExtractInv md A
        (if textPresent text && !decide (children.length > 0) then
          update_field_statistics l (pp ++ "/" ++ get_local_name tag) md
            (some (text.getD ""))
        else if !decide (children.length > 0) then
          update_field_statistics l (pp ++ "/" ++ get_local_name tag) md
            (some "")
        else l) := by
      have hcurA : children.length = 0 →
          A (pp ++ "/" ++ get_local_name tag) := by
        intro hlen
        apply hA
        rw [nodePaths]
        apply List.mem_append_left
        apply List.mem_append_left
        simp [hlen]
      by_cases hlen : children.length > 0
      · have hd : decide (children.length > 0) = true := decide_eq_true hlen
        rw [hd, Bool.not_true, Bool.and_false]
        rw [if_neg Bool.false_ne_true, if_neg Bool.false_ne_true]
        exact h
      · have hlen0 : children.length = 0 := Nat.eq_zero_of_not_pos hlen
        have hd : decide (children.length > 0) = false := decide_eq_false hlen
        rw [hd, Bool.not_false, Bool.and_true]
        by_cases htext : textPresent text = true
        · rw [if_pos htext]
          exact update_inv md A l _ _ h (hcurA hlen0)
        · rw [if_neg htext, if_pos rfl]
          exact update_inv md A l _ _ h (hcurA hlen0)
    exact processChildren_inv md A children _ _ (fun c hc => ih c hc)
      (processAttrs_inv md A attrib _ _ hstats1 hattrA) hforestA

theorem convert_paths (l : List FieldStatistics) :
    (convert_statistics_to_observations l).map (fun r => r.field_path) =
      statPaths l := by
  unfold convert_statistics_to_observations statPaths
  rw [List.map_map]
  rfl

/-- C2: for every XML element tree and metadata mapping, the engine
extractor produces at most one record per distinct fieldPath, and each
record has count at least 1, hasNull and hasEmpty derived exactly from the
underlying null/empty counts of a statistics entry (whose null+empty never
exceeds the total), a slash-rooted fieldPath drawn from the
namespace-stripped local-name paths of the input, and metadata equal by
value to the submitted metadata (the empty mapping when it was None); a
None element yields the empty collection. -/
theorem c2_extractor_record_invariants (root : XmlNode)
    (metadata : Option (List (String × String))) :
    ((extract_observations_from_element (some root) metadata).map
      (fun r => r.field_path)).Nodup ∧
    (∀ r ∈ extract_observations_from_element (some root) metadata,
      r.metadata = metadata.getD [] ∧ 1 ≤ r.count ∧
      SlashPath r.field_path ∧ r.field_path ∈ nodePaths root "" ∧
      ∃ s ∈ process_element_recursive root [] (metadata.getD []) "",
        r.field_path = s.field_path ∧ r.count = s.total_occurrences ∧
        r.has_null = decide (s.null_value_count > 0) ∧
        r.has_empty = decide (s.empty_value_count > 0) ∧
        s.null_value_count + s.empty_value_count ≤ s.total_occurrences) ∧
    extract_observations_from_element none metadata = [] := by
  have hinv : ExtractInv (metadata.getD [])
      (fun q => SlashPath q ∧ q ∈ nodePaths root "")
      (process_element_recursive root [] (metadata.getD []) "") := by
    refine process_element_inv _ _ root [] "" ⟨List.nodup_nil, ?_⟩ ?_
    · intro s hs
      cases hs
    · intro q hq
      exact ⟨nodePaths_slash root "" (Or.inl rfl) q hq, hq⟩
  refine ⟨?_, ?_, rfl⟩
  · show ((convert_statistics_to_observations _).map _).Nodup
    rw [convert_paths]
    exact hinv.1
  · intro r hr
    have hr2 : r ∈ convert_statistics_to_observations
        (process_element_recursive root [] (metadata.getD []) "") := hr
    obtain ⟨s, hs, rfl⟩ := List.mem_map.mp hr2
    obtain ⟨hmd, htot, hsum, _, hA⟩ := hinv.2 s hs
    exact ⟨hmd, htot, hA.1, hA.2, s, hs, rfl, rfl, rfl, rfl, hsum⟩

/-- Witness for C2 at a concrete input: the single record extracted from a
one-child document with metadata. -/
theorem c2_extractor_record_invariants_witness :
    ({ metadata := [("k", "v")], field_path := "/Root/Child", count := 1,
       has_null := false, has_empty := false } : CatalogObservationDto).metadata =
      (some [("k", "v")] : Option (List (String × String))).getD [] ∧
    (1 : Nat) ≤ 1 ∧
    SlashPath "/Root/Child" ∧
    "/Root/Child" ∈ nodePaths
      (XmlNode.elem "Root" [] none [XmlNode.elem "Child" [] (some "value") []])
      "" := by
  have h := (c2_extractor_record_invariants
    (XmlNode.elem "Root" [] none [XmlNode.elem "Child" [] (some "value") []])
    (some [("k", "v")])).2.1
    { metadata := [("k", "v")], field_path := "/Root/Child", count := 1,
      has_null := false, has_empty := false }
    (by decide)
  exact ⟨h.1, h.2.1, h.2.2.1, h.2.2.2.1⟩

theorem clientUpdate_keys (A : String → Prop)
    (l : List (String × ClientFieldStats)) (p : String)
    (f : ClientFieldStats → ClientFieldStats)
    (hl : ∀ e ∈ l, A e.1) (hp : A p) :
    ∀ e ∈ clientUpdate l p f, A e.1 := by
  intro e he
  unfold clientUpdate at he
  by_cases hmem : l.any (fun e => e.1 == p) = true
  · rw [if_pos hmem] at he
    obtain ⟨a, ha, rfl⟩ := List.mem_map.mp he
    by_cases hfp : a.1 = p
    · rw [if_pos (by simp [hfp])]
      simpa using hl a ha
    · rw [if_neg (by simp [hfp])]
      exact hl a ha
  · rw [if_neg hmem] at he
    rcases List.mem_append.mp he with h | h
    · exact hl e h
    · have he2 :
          e = (p, f { count := 0, has_null := false, has_empty := false }) := by
        simpa using h
      rw [he2]
      exact hp

theorem clientProcessAttrs_keys (A : String → Prop) :
    ∀ (attrs : List (String × String)) (l : List (String × ClientFieldStats))
      (cur : String), (∀ e ∈ l, A e.1) →
      (∀ a ∈ attrs, strContains a.1 "XMLSchema-instance" = false →
        A (cur ++ "/@" ++ get_local_name a.1)) →
      ∀ e ∈ clientProcessAttrs attrs l cur, A e.1 := by
  intro attrs
  induction attrs with
  | nil =>
      intro l cur hl _ e he
      rw [clientProcessAttrs] at he
      exact hl e he
  | cons a rest ih =>
      intro l cur hl hA e he
      rw [clientProcessAttrs] at he
      by_cases hskip : strContains a.1 "XMLSchema-instance" = true
      · rw [if_pos hskip] at he
        exact ih l cur hl (fun b hb => hA b (List.mem_cons_of_mem a hb)) e he
      · rw [if_neg hskip] at he
        refine ih _ cur ?_ (fun b hb => hA b (List.mem_cons_of_mem a hb)) e he
        exact clientUpdate_keys A l _ _ hl
          (hA a (List.mem_cons_self a rest)
            (Bool.not_eq_true _ ▸ Bool.of_not_eq_true hskip))

theorem clientProcessChildren_keys (A : String → Prop) :
    ∀ (cs : List XmlNode) (l : List (String × ClientFieldStats))
      (cur : String),
      (∀ c ∈ cs, ∀ l2 pp2, (∀ e ∈ l2, A e.1) →
        (∀ q ∈ clientNodePaths c pp2, A q) →
        ∀ e ∈ client_process_element c l2 pp2, A e.1) →
      (∀ e ∈ l, A e.1) → (∀ q ∈ clientForestPaths cs cur, A q) →
      ∀ e ∈ clientProcessChildren cs l cur, A e.1 := by
  intro cs
  induction cs with
  | nil =>
      intro l cur _ hl _ e he
      rw [clientProcessChildren] at he
      exact hl e he
  | cons c rest ih =>
      intro l cur hind hl hA e he
      rw [clientProcessChildren] at he
      refine ih _ cur (fun d hd => hind d (List.mem_cons_of_mem c hd)) ?_ ?_ e he
      · refine hind c (List.mem_cons_self c rest) l cur hl ?_
        intro q hq
        exact hA q (by rw [clientForestPaths]; exact List.mem_append_left _ hq)
      · intro q hq
        exact hA q (by rw [clientForestPaths]; exact List.mem_append_right _ hq)

/-- Every per-path entry produced by the client extractor walk has its key
among the client-mentionable paths (which exclude XSI attributes). -/
theorem client_process_keys (A : String → Prop) (n : XmlNode) :
    ∀ (l : List (String × ClientFieldStats)) (pp : String),
      (∀ e ∈ l, A e.1) → (∀ q ∈ clientNodePaths n pp, A q) →
      ∀ e ∈ client_process_element n l pp, A e.1 := by
  induction n using xmlNodeIndOn with
  | _ tag attrib text children ih =>
    intro l pp hl hA e he
    rw [client_process_element] at he
    have hattrA : ∀ a ∈ attrib,
        strContains a.1 "XMLSchema-instance" = false →
        A (pp ++ "/" ++ get_local_name tag ++ "/@" ++ get_local_name a.1) := by
      intro a ha hns
      apply hA
      rw [clientNodePaths]
      apply List.mem_append_left
      apply List.mem_append_right
      exact List.mem_map.mpr ⟨a, List.mem_filter.mpr ⟨ha, by simp [hns]⟩, rfl⟩
    have hforestA : ∀ q ∈ clientForestPaths children
        (pp ++ "/" ++ get_local_name tag), A q := by
      intro q hq
      apply hA
      rw [clientNodePaths]
      exact List.mem_append_right _ hq
    have hl1 : ∀ e ∈ (if children.length > 0 then l
        else clientUpdate l (pp ++ "/" ++ get_local_name tag)
          (clientLeafUpdate text (pyGet attrib xsiNilName))), A e.1 := by
      by_cases hlen : children.length > 0
      · rw [if_pos hlen]
        exact hl
      · rw [if_neg hlen]
        refine clientUpdate_keys A l _ _ hl ?_
        apply hA
        rw [clientNodePaths]
        apply List.mem_append_left
        apply List.mem_append_left
        have hlen0 : children.length = 0 := Nat.eq_zero_of_not_pos hlen
        simp [hlen0]
    exact clientProcessChildren_keys A children _ _ (fun c hc => ih c hc)
      (clientProcessAttrs_keys A attrib _ _ hl1 hattrA) hforestA e he

/-- C3 counterexample: the fire-and-forget engine's extractor does not
ignore XSI attributes — on a childless element carrying only
xsi:nil equal to true it produces an observation record at the attribute
path /Root/@nil, refuting the claim that no record is produced for an xsi
attribute path in both extractors. -/
theorem c3_counterexample_engine_records_xsi_attribute :
    ∃ r ∈ extract_observations_from_element (some nilOnlyElem) none,
      r.field_path = "/Root/@nil" := by
  decide

/-- C3 amended: XSI attributes are ignored only by the generator-side
client's extractor — every record it produces sits at an element path or a
non-XSI attribute path — while the fire-and-forget engine's extractor
records XSI attributes like ordinary attributes (producing /Root/@nil on
the xsi:nil-only element, which the client does not). -/
theorem c3_amended_only_client_ignores_xsi
    (parse : String → Except Unit XmlNode) (xml : String)
    (md : List (String × String)) (root : XmlNode)
    (hp : parse xml = Except.ok root) :
    (∀ r ∈ client_extract_observations_from_xml parse xml md,
      r.fieldPath ∈ clientNodePaths root "") ∧
    client_extract_observations_from_xml (fun _ => Except.ok nilOnlyElem)
      "x" [] = clientNilResult ∧
    (∃ r ∈ extract_observations_from_element (some nilOnlyElem) none,
      r.field_path = "/Root/@nil") := by
  refine ⟨?_, by decide, by decide⟩
  intro r hr
  unfold client_extract_observations_from_xml at hr
  rw [hp] at hr
  obtain ⟨e, he, rfl⟩ := List.mem_map.mp hr
  exact client_process_keys (fun q => q ∈ clientNodePaths root "") root [] ""
    (by intro a h; cases h) (fun q hq => hq) e he

/-- Witness for the amended C3 at a concrete input: the client extractor
applied to the xsi:nil-only element produces only the /Root record and no
/Root/@nil record. -/
theorem c3_amended_only_client_ignores_xsi_witness :
    client_extract_observations_from_xml (fun _ => Except.ok nilOnlyElem)
      "x" [] = clientNilResult :=
  (c3_amended_only_client_ignores_xsi (fun _ => Except.ok nilOnlyElem) "x"
    [] nilOnlyElem rfl).2.1

/-- C9: every observation record produced by the fire-and-forget engine's
extractor has hasNull false (its statistics never record a null sighting);
on the childless xsi:nil-only element the engine classifies the element as
empty (hasEmpty true, hasNull false, with the nil attribute recorded as an
ordinary attribute), while the generator-side client's extractor sets
hasNull true for the same input. -/
theorem c9_engine_never_null_client_honors_nil :
    (∀ (root : XmlNode) (metadata : Option (List (String × String)))
      (r : CatalogObservationDto),
      r ∈ extract_observations_from_element (some root) metadata →
      r.has_null = false) ∧
    extract_observations_from_element (some nilOnlyElem) none =
      engineNilResult ∧
    client_extract_observations_from_xml (fun _ => Except.ok nilOnlyElem)
      "x" [] = clientNilResult := by
  refine ⟨?_, by decide, by decide⟩
  intro root metadata r hr
  have hinv : ExtractInv (metadata.getD []) (fun _ => True)
      (process_element_recursive root [] (metadata.getD []) "") := by
    refine process_element_inv _ _ root [] "" ⟨List.nodup_nil, ?_⟩
      (fun _ _ => trivial)
    intro s hs
    cases hs
  have hr2 : r ∈ convert_statistics_to_observations
      (process_element_recursive root [] (metadata.getD []) "") := hr
  obtain ⟨s, hs, rfl⟩ := List.mem_map.mp hr2
  have hnull : s.null_value_count = 0 := (hinv.2 s hs).2.2.2.1
  show decide (s.null_value_count > 0) = false
  rw [hnull]
  decide

/-- Witness for C9 at a concrete input: the record extracted by the engine
from a plain document has hasNull false. -/
theorem c9_engine_never_null_client_honors_nil_witness :
    ({ metadata := [], field_path := "/Root", count := 1, has_null := false,
       has_empty := false } : CatalogObservationDto).has_null = false :=
  (c9_engine_never_null_client_honors_nil).1
    (XmlNode.elem "Root" [] (some "x") []) none
    { metadata := [], field_path := "/Root", count := 1, has_null := false,
      has_empty := false }
    (by decide)

example :
    extract_observations_from_element
      (some (XmlNode.elem "Root" [] none
        [XmlNode.elem "Child" [] (some "value") []]))
      (some [("k", "v")]) =
    [{ metadata := [("k", "v")], field_path := "/Root/Child", count := 1,
       has_null := false, has_empty := false }] := by
  decide

example :
    extract_observations_from_element
      (some (XmlNode.elem "Root" [("a", "x")] none
        [XmlNode.elem "Item" [] (some "1") [],
         XmlNode.elem "Item" [] (some " ") []]))
      none =
    [{ metadata := [], field_path := "/Root/@a", count := 1,
       has_null := false, has_empty := false },
     { metadata := [], field_path := "/Root/Item", count := 2,
       has_null := false, has_empty := true }] := by
  decide

example :
    extract_observations_from_element
      (some (XmlNode.elem
        "\x7bu\x7dRoot" [] none [XmlNode.elem "\x7bu\x7dChild" [] (some "t") []]))
      none =
    [{ metadata := [], field_path := "/Root/Child", count := 1,
       has_null := false, has_empty := false }] := by
  decide

/-- C10: for every context_id (and any retry configuration and any HTTP
behavior), submit_observations with an empty observation list returns the
success result with observation_count zero and no error message, performs
no HTTP request, and never sleeps for a retry. -/
theorem c10_empty_submission_short_circuits (max_retries : Nat)
    (retry_delay : ℚ) (outcomes : Nat → ReqOutcome) (context_id : String) :
    client_submit_observations max_retries retry_delay outcomes context_id
      [] = mkTrace (mkResult true 0 none) [] 0 := rfl

theorem delaysList_succ (d : ℚ) (k : Nat) :
    delaysList d (k + 1) = delaysList d k ++ [d * ((k : ℚ) + 1)] := by
  unfold delaysList
  rw [List.range_succ, List.map_append]
  rfl

theorem submit_loop_retry_step (M : Nat) (d : ℚ) (out : Nat → ReqOutcome)
    (n k : Nat) (sleeps : List ℚ) (hk : k < M - 1)
    (hr : isRetriableOutcome (out k) = true) :
    submit_loop M d out n k sleeps =
      submit_loop M d out n (k + 1) (sleeps ++ [d * ((k : ℚ) + 1)]) := by
  have hkM : k < M := by omega
  rw [submit_loop, if_pos hkM]
  cases hout : out k with
  | status c txt =>
      rw [hout] at hr
      have hns : ¬(c = 200 ∨ c = 201 ∨ c = 204) := by
        intro hc
        rcases hc with rfl | rfl | rfl <;> simp [isRetriableOutcome] at hr
      have h500 : 500 ≤ c := by
        by_contra hlt
        simp [isRetriableOutcome, hlt] at hr
      simp only [hns, h500, hk, if_true, if_false]
  | timeout =>
      simp only [hk, if_true]
  | netError m =>
      simp only [hk, if_true]

theorem submit_loop_reach (M : Nat) (d : ℚ) (out : Nat → ReqOutcome)
    (n : Nat) :
    ∀ k, k < M → (∀ j, j < k → isRetriableOutcome (out j) = true) →
      submit_loop M d out n 0 [] = submit_loop M d out n k (delaysList d k) := by
  intro k
  induction k with
  | zero => intro _ _; rfl
  | succ k ih =>
      intro hk hall
      rw [ih (by omega) (fun j hj => hall j (by omega)),
        submit_loop_retry_step M d out n k (delaysList d k) (by omega)
          (hall k (by omega)),
        delaysList_succ]

theorem submit_loop_success_at (M : Nat) (d : ℚ) (out : Nat → ReqOutcome)
    (n k : Nat) (sleeps : List ℚ) (hk : k < M)
    (hs : isSuccessOutcome (out k) = true) :
    submit_loop M d out n k sleeps =
      mkTrace (mkResult true n none) sleeps (k + 1) := by
  rw [submit_loop, if_pos hk]
  cases hout : out k with
  | status c txt =>
      rw [hout] at hs
      have hc : c = 200 ∨ c = 201 ∨ c = 204 := by
        by_contra hns
        push_neg at hns
        simp [isSuccessOutcome, hns.1, hns.2.1, hns.2.2] at hs
      simp only [hc, if_true]
  | timeout =>
      rw [hout] at hs
      simp [isSuccessOutcome] at hs
  | netError m =>
      rw [hout] at hs
      simp [isSuccessOutcome] at hs

theorem submit_loop_clienterr_at (M : Nat) (d : ℚ) (out : Nat → ReqOutcome)
    (n k : Nat) (sleeps : List ℚ) (hk : k < M) (c : Nat) (txt : String)
    (hout : out k = ReqOutcome.status c txt)
    (hns : ¬(c = 200 ∨ c = 201 ∨ c = 204)) (hlt : c < 500) :
    submit_loop M d out n k sleeps =
      mkTrace (mkResult false 0 (some ("Client error: " ++ Nat.repr c ++
        " - " ++ txt))) sleeps (k + 1) := by
  rw [submit_loop, if_pos hk, hout]
  have h500 : ¬(500 ≤ c) := by omega
  simp only [hns, h500, if_false]

theorem submit_loop_exhaust_at (M : Nat) (d : ℚ) (out : Nat → ReqOutcome)
    (n k : Nat) (sleeps : List ℚ) (hk : k < M) (hlast : ¬(k < M - 1))
    (hr : isRetriableOutcome (out k) = true) :
    (submit_loop M d out n k sleeps).result.success = false ∧
    (submit_loop M d out n k sleeps).sleeps = sleeps ∧
    (submit_loop M d out n k sleeps).requests = k + 1 := by
  rw [submit_loop, if_pos hk]
  cases hout : out k with
  | status c txt =>
      rw [hout] at hr
      have hns : ¬(c = 200 ∨ c = 201 ∨ c = 204) := by
        intro hc
        rcases hc with rfl | rfl | rfl <;> simp [isRetriableOutcome] at hr
      have h500 : 500 ≤ c := by
        by_contra hlt
        simp [isRetriableOutcome, hlt] at hr
      simp only [hns, h500, hlast, if_true, if_false]
      exact ⟨rfl, rfl, rfl⟩
  | timeout =>
      simp only [hlast, if_false]
      exact ⟨rfl, rfl, rfl⟩
  | netError m =>
      simp only [hlast, if_false]
      exact ⟨rfl, rfl, rfl⟩

/-- C8: for every call of the synchronous client's submit_observations
with a non-empty observation list, the outcome is a typed result (the
embedded operation is total): after any prefix of retriable outcomes
(status 500 or more, timeout, or network failure), a response status of
200, 201 or 204 yields a success result carrying the observation count,
with the retries slept at exactly retry_delay times attempt plus one; any
other non-success status (under 500) yields an immediate failure result
with no further attempt; and when every attempt is retriable the failure
result is returned after exactly max_retries attempts with the full
linear-backoff sleep sequence. -/
theorem c8_submit_retry_policy (M : Nat) (d : ℚ) (out : Nat → ReqOutcome)
    (ctx : String) (obs : List ClientObservation) (hobs : obs ≠ []) :
    (∀ k, k < M → (∀ j, j < k → isRetriableOutcome (out j) = true) →
      (isSuccessOutcome (out k) = true →
        client_submit_observations M d out ctx obs =
          mkTrace (mkResult true obs.length none) (delaysList d k) (k + 1)) ∧
      (∀ c txt, out k = ReqOutcome.status c txt →
        ¬(c = 200 ∨ c = 201 ∨ c = 204) → c < 500 →
        client_submit_observations M d out ctx obs =
          mkTrace (mkResult false 0 (some ("Client error: " ++
            Nat.repr c ++ " - " ++ txt))) (delaysList d k) (k + 1))) ∧
    ((∀ j, j < M → isRetriableOutcome (out j) = true) → 0 < M →
      (client_submit_observations M d out ctx obs).result.success = false ∧
      (client_submit_observations M d out ctx obs).sleeps =
        delaysList d (M - 1) ∧
      (client_submit_observations M d out ctx obs).requests = M) := by
  have hne : obs.isEmpty = false := by
    cases obs with
    | nil => exact absurd rfl hobs
    | cons a l => rfl
  have hunfold : client_submit_observations M d out ctx obs =
      submit_loop M d out obs.length 0 [] := by
    unfold client_submit_observations
    rw [hne]
    rfl
  constructor
  · intro k hk hall
    constructor
    · intro hs
      rw [hunfold, submit_loop_reach M d out obs.length k hk hall,
        submit_loop_success_at M d out obs.length k _ hk hs]
    · intro c txt hout hns hlt
      rw [hunfold, submit_loop_reach M d out obs.length k hk hall,
        submit_loop_clienterr_at M d out obs.length k _ hk c txt hout hns hlt]
  · intro hall hM
    have hreach := submit_loop_reach M d out obs.length (M - 1) (by omega)
      (fun j hj => hall j (by omega))
    have hex := submit_loop_exhaust_at M d out obs.length (M - 1)
      (delaysList d (M - 1)) (by omega) (by omega)
      (hall (M - 1) (by omega))
    rw [hunfold, hreach]
    refine ⟨hex.1, hex.2.1, ?_⟩
    rw [hex.2.2]
    omega

/-- Witness for C8 at a concrete input: with max_retries 3 and retry_delay
1, a 503 followed by a 200 yields success with one observation, two
requests, and one backoff sleep. -/
theorem c8_submit_retry_policy_witness :
    client_submit_observations 3 1 c8Out "ctx" [c8Obs] =
      mkTrace (mkResult true 1 none) (delaysList 1 1) 2 := by
  have h := ((c8_submit_retry_policy 3 1 c8Out "ctx" [c8Obs]
    (by simp)).1 1 (by omega)
    (fun j hj => by
      have hj0 : j = 0 := by omega
      rw [hj0]
      decide)).1 (by decide)
  exact h

/-- C4 failing-input evidence: with the default configuration and
minOccurs 21 (bounded by maxOccurs 25 or unbounded), get_repeat_count
normalizes to min 21 then caps only the max at 20, handing random.randint
the empty range (21, 20) and raising ValueError instead of returning a
value, contradicting the claim that both bounds are clamped to 20,
normalized so min is at most max, and a value is always returned. -/
theorem c4_repeat_count_raises_on_min_occurs_21 :
    get_repeat_count_bounds dcfgDefault "/p" 21 none = (21, 20) ∧
    get_repeat_count dcfgDefault 0 "/p" 21 none =
      Except.error "empty range for randrange" ∧
    get_repeat_count_bounds dcfgDefault "/p" 21 (some 25) = (21, 20) ∧
    get_repeat_count dcfgDefault 0 "/p" 21 (some 25) =
      Except.error "empty range for randrange" :=
  ⟨rfl, rfl, rfl, rfl⟩

/-- C5 counterexample: a non-enum string leaf whose path is bound to the
semantic type email can still emit the empty string — the empty-string
rule is checked before the semantic lookup — so the emitted text is not
the value produced by the value registry, refuting the claim. -/
theorem c5_counterexample_empty_rule_preempts_semantic :
    lookupSem [("/Root/E", some "email")] "/Root/E" = some "email" ∧
    (generate_text_value constOracle [("/Root/E", some "email")]
      (some c5Type) "/Root/E" 0).1 = "" ∧
    (∀ t2, constOracle.registry t2 "email" = "email:value") ∧
    ("" : String) ≠ "email:value" := by
  refine ⟨rfl, rfl, fun t2 => rfl, by decide⟩

/-- C5 amended: the empty-string rule is applied first — for every leaf
with a non-enum string-based type it can return the empty string even when
a semantic type is bound.  Only when the empty rule does not fire does a
bound semantic type win, producing the registry value; with no binding the
XSD value generator is the final fallback; and the empty rule never fires
for an enumerated type. -/
theorem c5_amended_empty_rule_precedes_semantic (o : GenOracle)
    (sem : List (String × Option String)) (type_def : Option XsdSimpleTypeL)
    (full_path : String) (t : Nat) :
    (empty_rule_fires o type_def full_path t = true →
      (generate_text_value o sem type_def full_path t).1 = "") ∧
    (empty_rule_fires o type_def full_path t = false →
      ∀ tok, lookupSem sem full_path = some tok →
        ∃ t2, (generate_text_value o sem type_def full_path t).1 =
          o.registry t2 tok) ∧
    (empty_rule_fires o type_def full_path t = false →
      lookupSem sem full_path = none →
        ∃ t2, generate_text_value o sem type_def full_path t =
          xsd_generate o type_def t2) ∧
    (∀ td l, type_def = some td → td.enumeration = some l →
      empty_rule_fires o type_def full_path t = false) := by
  cases type_def with
  | none =>
      refine ⟨?_, ?_, ?_, ?_⟩
      · intro h
        simp [empty_rule_fires] at h
      · intro _ tok htok
        refine ⟨t, ?_⟩
        simp [generate_text_value, semantic_or_xsd, htok]
      · intro _ hnone
        refine ⟨t, ?_⟩
        simp [generate_text_value, semantic_or_xsd, hnone]
      · intro td l htd
        cases htd
  | some td =>
      cases henum : td.enumeration with
      | none =>
          by_cases hbase : pyBaseLower td.base_type = "string"
          · by_cases hbe : o.be_empty t full_path = true
            · refine ⟨?_, ?_, ?_, ?_⟩
              · intro _
                simp [generate_text_value, hbase, henum, hbe]
              · intro hoff
                simp [empty_rule_fires, hbase, henum, hbe] at hoff
              · intro hoff
                simp [empty_rule_fires, hbase, henum, hbe] at hoff
              · intro td2 l htd2 henum2
                cases htd2
                rw [henum] at henum2
                cases henum2
            · refine ⟨?_, ?_, ?_, ?_⟩
              · intro hon
                simp [empty_rule_fires, hbase, henum, hbe] at hon
              · intro _ tok htok
                refine ⟨t + 1, ?_⟩
                simp [generate_text_value, hbase, henum, hbe,
                  semantic_or_xsd, htok]
              · intro _ hnone
                refine ⟨t + 1, ?_⟩
                simp [generate_text_value, hbase, henum, hbe,
                  semantic_or_xsd, hnone]
              · intro td2 l htd2 henum2
                cases htd2
                rw [henum] at henum2
                cases henum2
          · refine ⟨?_, ?_, ?_, ?_⟩
            · intro hon
              simp [empty_rule_fires, hbase, henum] at hon
            · intro _ tok htok
              refine ⟨t, ?_⟩
              simp [generate_text_value, hbase, henum, semantic_or_xsd, htok]
            · intro _ hnone
              refine ⟨t, ?_⟩
              simp [generate_text_value, hbase, henum, semantic_or_xsd, hnone]
            · intro td2 l htd2 henum2
              cases htd2
              rw [henum] at henum2
              cases henum2
      | some l =>
          refine ⟨?_, ?_, ?_, ?_⟩
          · intro hon
            simp [empty_rule_fires, henum] at hon
          · intro _ tok htok
            refine ⟨t, ?_⟩
            simp [generate_text_value, henum, semantic_or_xsd, htok]
          · intro _ hnone
            refine ⟨t, ?_⟩
            simp [generate_text_value, henum, semantic_or_xsd, hnone]
          · intro td2 l2 htd2 henum2
            cases htd2
            simp [empty_rule_fires, henum]

/-- Witness for the amended C5 at concrete inputs: the empty rule firing
yields the empty string, and with the rule off the bound semantic token
email yields the registry value. -/
theorem c5_amended_empty_rule_precedes_semantic_witness :
    (generate_text_value constOracle [("/Root/E", some "email")]
      (some c5Type) "/Root/E" 0).1 = "" := by
  have h := (c5_amended_empty_rule_precedes_semantic constOracle
    [("/Root/E", some "email")] (some c5Type) "/Root/E" 0).1
  exact h (by decide)

/-- Induction principle for the nested inductive XsdElementL. -/
theorem xsdElementIndOn (P : XsdElementL → Prop)
    (h : ∀ nm mo Mo nil td attrs cs fp, (∀ c ∈ cs, P c) →
      P (XsdElementL.mk nm mo Mo nil td attrs cs fp)) :
    ∀ d, P d
  | XsdElementL.mk nm mo Mo nil td attrs cs fp =>
    h nm mo Mo nil td attrs cs fp (fun c hc =>
      have : sizeOf c < sizeOf (XsdElementL.mk nm mo Mo nil td attrs cs fp) := by
        have hlt := List.sizeOf_lt_of_mem hc
        simp only [XsdElementL.mk.sizeOf_spec]
        omega
      xsdElementIndOn P h c)
termination_by d => sizeOf d

theorem py_choice_mem (ix : Nat) (l : List String) (hl : l ≠ []) :
    py_choice ix l ∈ l := by
  unfold py_choice
  have hlen : 0 < l.length := List.length_pos.mpr hl
  have hmod : ix % l.length < l.length := Nat.mod_lt _ hlen
  rw [List.getD_eq_getElem l "" hmod]
  exact List.getElem_mem hmod

/-- With a nonempty enumeration and no semantic binding, the leaf text is
drawn from the enumeration. -/
theorem generate_text_value_enum_mem (o : GenOracle)
    (sem : List (String × Option String)) (tdv : XsdSimpleTypeL)
    (fp : String) (t : Nat) (l : List String)
    (henum : tdv.enumeration = some l) (hl : l ≠ [])
    (hsem : lookupSem sem fp = none) :
    (generate_text_value o sem (some tdv) fp t).1 ∈ l := by
  have hsome : tdv.enumeration.isSome = true := by simp [henum]
  have hlF : l.isEmpty = false := by
    cases l with
    | nil => exact absurd rfl hl
    | cons a as => rfl
  simp only [generate_text_value, semantic_or_xsd, xsd_generate, hsome,
    hsem, henum, Option.getD_some, hlF, Bool.not_true, Bool.and_false,
    Bool.false_eq_true, if_false, Bool.not_false, if_true]
  simp only [Option.isSome_some, Bool.not_true, Bool.and_false,
    Bool.false_eq_true, if_false]
  exact py_choice_mem (o.choice_ix t) l hl

theorem enumAnyOk_of_mem (ds : List XsdElementL) (cd : XsdElementL)
    (c : XmlNode) (hmem : cd ∈ ds) (h : enumLeafOk cd c = true) :
    enumAnyOk ds c = true := by
  induction ds with
  | nil => cases hmem
  | cons d rest ih =>
      rw [enumAnyOk]
      rcases List.mem_cons.mp hmem with rfl | hmem2
      · rw [h, Bool.true_or]
      · rw [ih hmem2, Bool.or_true]

theorem enumForestOk_of_forall (ds : List XsdElementL) (cs : List XmlNode)
    (h : ∀ c ∈ cs, enumAnyOk ds c = true) : enumForestOk ds cs = true := by
  induction cs with
  | nil => rw [enumForestOk]
  | cons c rest ih =>
      rw [enumForestOk, h c (List.mem_cons_self c rest),
        ih (fun x hx => h x (List.mem_cons_of_mem c hx)), Bool.and_true]

theorem semFreeForest_mem (sem : List (String × Option String))
    (cds : List XsdElementL) (h : semFreeForest sem cds = true)
    (cd : XsdElementL) (hmem : cd ∈ cds) : semFreeEnums sem cd = true := by
  induction cds with
  | nil => cases hmem
  | cons d rest ih =>
      rw [semFreeForest, Bool.and_eq_true] at h
      rcases List.mem_cons.mp hmem with rfl | hmem2
      · exact h.1
      · exact ih h.2 hmem2

theorem generate_repeat_enum_ok (o : GenOracle) (cfg : DistributionConfigL)
    (sem : List (String × Option String)) (cd : XsdElementL)
    (hP : GenEnumOk o cfg sem cd) (hsf : semFreeEnums sem cd = true) :
    ∀ n t cs t2, generate_repeat o cfg sem cd n t = (Except.ok cs, t2) →
      ∀ c ∈ cs, enumLeafOk cd c = true := by
  intro n
  induction n with
  | zero =>
      intro t cs t2 h c hc
      rw [generate_repeat] at h
      simp only [Prod.mk.injEq, Except.ok.injEq] at h
      obtain ⟨rfl, rfl⟩ := h
      cases hc
  | succ k ih =>
      intro t cs t2 h c hc
      rw [generate_repeat] at h
      split at h
      · simp at h
      · next t1 heq => exact ih t1 cs t2 h c hc
      · next c1 t1 heq =>
          split at h
          · simp at h
          · next cs1 t3 heq2 =>
              simp only [Prod.mk.injEq, Except.ok.injEq] at h
              obtain ⟨rfl, rfl⟩ := h
              rcases List.mem_cons.mp hc with rfl | hc2
              · exact hP t c t1 hsf heq
              · exact ih t1 cs1 t3 heq2 c hc2

theorem generate_children_enum_ok (o : GenOracle)
    (cfg : DistributionConfigL) (sem : List (String × Option String)) :
    ∀ (cds : List XsdElementL),
      (∀ cd ∈ cds, GenEnumOk o cfg sem cd) →
      semFreeForest sem cds = true →
      ∀ t cs t2, generate_children o cfg sem cds t = (Except.ok cs, t2) →
        ∀ c ∈ cs, ∃ cd ∈ cds, enumLeafOk cd c = true := by
  intro cds
  induction cds with
  | nil =>
      intro _ _ t cs t2 h c hc
      rw [generate_children] at h
      simp only [Prod.mk.injEq, Except.ok.injEq] at h
      obtain ⟨rfl, rfl⟩ := h
      cases hc
  | cons cd rest ih =>
      intro hall hsf t cs t2 h c hc
      rw [generate_children] at h
      rw [semFreeForest, Bool.and_eq_true] at hsf
      split at h
      · simp at h
      · next count hrc =>
          split at h
          · simp at h
          · next cs1 t3 hgr =>
              split at h
              · simp at h
              · next cs2 t4 hgc =>
                  simp only [Prod.mk.injEq, Except.ok.injEq] at h
                  obtain ⟨rfl, rfl⟩ := h
                  rcases List.mem_append.mp hc with hc1 | hc2
                  · exact ⟨cd, List.mem_cons_self cd rest,
                      generate_repeat_enum_ok o cfg sem cd
                        (hall cd (List.mem_cons_self cd rest)) hsf.1
                        count (t + 1) cs1 t3 hgr c hc1⟩
                  · obtain ⟨cd2, hcd2, hok⟩ := ih
                      (fun x hx => hall x (List.mem_cons_of_mem cd hx))
                      hsf.2 t3 cs2 t4 hgc c hc2
                    exact ⟨cd2, List.mem_cons_of_mem cd hcd2, hok⟩

theorem gen_elem_body_enum_ok (o : GenOracle) (cfg : DistributionConfigL)
    (sem : List (String × Option String)) (nm : String) (mo : Nat)
    (Mo : Option Nat) (nilb : Bool) (td : Option XsdSimpleTypeL)
    (attrs : List XsdAttributeL) (cs : List XsdElementL) (fp : String)
    (hih : ∀ c ∈ cs, GenEnumOk o cfg sem c)
    (hsf : semFreeEnums sem (XsdElementL.mk nm mo Mo nilb td attrs cs fp) =
      true) :
    ∀ t2 tr t3, gen_elem_body o cfg sem nm mo td attrs cs fp t2 =
      (Except.ok (some tr), t3) →
      enumLeafOk (XsdElementL.mk nm mo Mo nilb td attrs cs fp) tr = true := by
  rw [semFreeEnums.eq_def, Bool.and_eq_true] at hsf
  intro t2 tr t3 h
  rw [gen_elem_body] at h
  by_cases hleaf : cs.isEmpty = true
  · rw [if_pos hleaf] at h
    simp only [Prod.mk.injEq, Except.ok.injEq, Option.some.injEq] at h
    obtain ⟨rfl, rfl⟩ := h
    simp only [enumLeafOk.eq_def]
    cases td with
    | none =>
        simp [enumForestOk]
    | some tdv =>
        cases henum : tdv.enumeration with
        | none => simp [henum, enumForestOk]
        | some l =>
            by_cases hl : l.isEmpty = true
            · simp [henum, hl, enumForestOk]
            · have hlne : l ≠ [] := by
                cases l with
                | nil => simp at hl
                | cons a as => simp
              have hlF : l.isEmpty = false := by
                cases hie : l.isEmpty with
                | true => exact absurd hie hl
                | false => rfl
              have h1 := hsf.1
              simp only [henum] at h1
              rw [if_pos (by rw [hleaf, hlF]; rfl)] at h1
              have hsem : lookupSem sem fp = none :=
                Option.isNone_iff_eq_none.mp h1
              have hmem := generate_text_value_enum_mem o sem tdv fp
                ((generate_attrs o attrs fp t2).2) l henum hlne hsem
              simp only [henum, enumForestOk, Bool.and_true]
              rw [if_pos (by rw [hleaf, hlF]; rfl)]
              exact List.elem_eq_true_of_mem hmem
  · rw [if_neg hleaf] at h
    split at h
    · simp at h
    · next cs1 t4 hgc =>
        split at h
        · simp at h
        · simp only [Prod.mk.injEq, Except.ok.injEq, Option.some.injEq] at h
          obtain ⟨rfl, rfl⟩ := h
          have hforest := generate_children_enum_ok o cfg sem cs hih hsf.2
            _ cs1 t4 hgc
          have hfok : enumForestOk cs cs1 = true := by
            apply enumForestOk_of_forall
            intro c hc
            obtain ⟨cd, hcd, hok⟩ := hforest c hc
            exact enumAnyOk_of_mem cs cd c hcd hok
          simp only [enumLeafOk.eq_def, hfok, Bool.and_true, Bool.true_and]

theorem gen_elem_core_enum_ok (o : GenOracle) (cfg : DistributionConfigL)
    (sem : List (String × Option String)) (nm : String) (mo : Nat)
    (Mo : Option Nat) (nilb : Bool) (td : Option XsdSimpleTypeL)
    (attrs : List XsdAttributeL) (cs : List XsdElementL) (fp : String)
    (hih : ∀ c ∈ cs, GenEnumOk o cfg sem c)
    (hsf : semFreeEnums sem (XsdElementL.mk nm mo Mo nilb td attrs cs fp) =
      true) :
    ∀ t1 tr t3, gen_elem_core o cfg sem nm mo nilb td attrs cs fp t1 =
      (Except.ok (some tr), t3) →
      enumLeafOk (XsdElementL.mk nm mo Mo nilb td attrs cs fp) tr = true := by
  intro t1 tr t3 h
  rw [gen_elem_core] at h
  by_cases hnil : (nilb && o.be_null t1 fp) = true
  · rw [if_pos hnil] at h
    simp only [Prod.mk.injEq, Except.ok.injEq, Option.some.injEq] at h
    obtain ⟨rfl, rfl⟩ := h
    simp only [enumLeafOk.eq_def, enumForestOk, Bool.and_true]
  · rw [if_neg hnil] at h
    exact gen_elem_body_enum_ok o cfg sem nm mo Mo nilb td attrs cs fp hih
      hsf _ tr t3 h

/-- Every successfully generated element satisfies the enumeration
soundness predicate, provided the meta configuration binds no semantic
type to an enumerated leaf of its subtree. -/
theorem generate_element_enum_ok (o : GenOracle) (cfg : DistributionConfigL)
    (sem : List (String × Option String)) :
    ∀ d, GenEnumOk o cfg sem d := by
  intro d
  induction d using xsdElementIndOn with
  | _ nm mo Mo nilb td attrs cs fp ih =>
    intro t tr t2 hsf hgen
    rw [generate_element] at hgen
    by_cases hopt : (mo == 0 && !(o.include_opt t fp)) = true
    · rw [if_pos hopt] at hgen
      simp at hgen
    · rw [if_neg hopt] at hgen
      exact gen_elem_core_enum_ok o cfg sem nm mo Mo nilb td attrs cs fp
        ih hsf _ tr t2 hgen

/-- C7 counterexample: when the meta configuration binds the semantic type
email to the enumerated leaf /status, the generated document's status leaf
carries the value registry's text, which is not a member of the declared
enumeration — refuting the claim for every generated document. -/
theorem c7_counterexample_semantic_overrides_enum :
    generate_element constOracle dcfgDefault [("/status", some "email")]
      statusDef 0 =
      (Except.ok (some (XmlNode.elem "status" [] (some "email:value") [])),
        1) ∧
    ("email:value" ∈ ["ACTIVE", "INACTIVE", "PENDING"] → False) := by
  constructor
  · simp only [statusDef, generate_element, gen_elem_core, gen_elem_body]
    rfl
  · decide

/-- C7 amended: for every generated document and every emitted leaf
element whose XSD simple type declares a nonempty enumeration, the emitted
text content is a member of that enumeration, provided no semantic type is
bound to the leaf's path in the meta configuration (a semantic binding
bypasses the enumeration); nil elements carry no text, and since the
emitted text is an enumeration member it is the empty string only if the
enumeration itself declares the empty string. -/
theorem c7_amended_enum_membership_when_unbound (o : GenOracle)
    (cfg : DistributionConfigL) (sem : List (String × Option String))
    (d : XsdElementL) (t : Nat) (tr : XmlNode) (t2 : Nat)
    (hsf : semFreeEnums sem d = true)
    (hgen : generate_element o cfg sem d t = (Except.ok (some tr), t2)) :
    enumLeafOk d tr = true :=
  generate_element_enum_ok o cfg sem d t tr t2 hsf hgen

/-- Witness for the amended C7 at a concrete input: with no semantic
binding, the generated status leaf satisfies enumeration soundness. -/
theorem c7_amended_enum_membership_when_unbound_witness :
    enumLeafOk statusDef (XmlNode.elem "status" [] (some "ACTIVE") []) =
      true :=
  c7_amended_enum_membership_when_unbound constOracle dcfgDefault []
    statusDef 0 (XmlNode.elem "status" [] (some "ACTIVE") []) 1
    (by decide)
    (by
      simp only [statusDef, generate_element, gen_elem_core, gen_elem_body]
      rfl)

/-- C6: shutdown returns true immediately when the engine is not
initialized; otherwise it drains and waits — returning true with an
emptied queue on a clean drain within the timeout, false when the timeout
expires — and after shutdown every intake call returns silently without
enqueuing (the state, in particular the queue, is unchanged). -/
theorem c6_shutdown_contract (st : EngineLifecycle) (drain : Bool)
    (obs : List CatalogObservationDto) (ctx : Option String) :
    (st.initialized = false → sh_shutdown st drain = (true, st)) ∧
    (st.initialized = true → drain = true →
      (sh_shutdown st drain).1 = true ∧
      (sh_shutdown st drain).2.queue = []) ∧
    (st.initialized = true → drain = false →
      (sh_shutdown st drain).1 = false) ∧
    sh_submit (sh_shutdown st drain).2 obs ctx = (sh_shutdown st drain).2 := by
  refine ⟨?_, ?_, ?_, ?_⟩
  · intro h
    simp [sh_shutdown, h]
  · intro h hd
    simp [sh_shutdown, h, hd]
  · intro h hd
    simp [sh_shutdown, h, hd]
  · by_cases hinit : st.initialized = true
    · by_cases hd : drain = true
      · simp [sh_shutdown, hinit, hd, sh_submit]
      · simp [sh_shutdown, hinit, hd, sh_submit]
    · have hinit2 : st.initialized = false := by
        cases hi : st.initialized with
        | true => exact absurd hi hinit
        | false => rfl
      simp [sh_shutdown, hinit2, sh_submit]

/-- Witness for C6 at concrete states: an uninitialized engine returns
true immediately, and a submission after a clean shutdown of an
initialized engine leaves the drained state unchanged. -/
theorem c6_shutdown_contract_witness :
    sh_shutdown lcUninit true = (true, lcUninit) ∧
    sh_submit (sh_shutdown lcInit true).2 [fullObservation] (some "ctx") =
      (sh_shutdown lcInit true).2 := by
  constructor
  · exact (c6_shutdown_contract lcUninit true [] none).1 rfl
  · exact (c6_shutdown_contract lcInit true [fullObservation]
      (some "ctx")).2.2.2
